import Mathlib

/-!
Verification of the `tkf` CORS proxy (src/api/index.js, src/unnamed/part_000).

The development shallowly embeds the request/response pipeline of the proxy:
the percent-encoding URL codec (JavaScript encodeURIComponent /
decodeURIComponent, including strict UTF-8 byte handling), a WHATWG-style
model of `new URL` restricted to the http/https forms the handler can reach,
the decode-and-validate phase of the `/cors/*` route, the upstream-response
processing (redirect rewrite, HTML attribute rewrite, source-text regex
rewrite, passthrough) and the outbound header copying.  HTML parsing and
serialisation and the HTTP client are external collaborators of the source
and are taken as parameters; everything the handler itself computes is
modelled from the code.
-/

set_option maxRecDepth 40000

/-! ## Basic character and list utilities -/

/-- ASCII lower-casing of a single character (as JavaScript toLowerCase on
the ASCII range, which is all the handler relies on). -/
def lowerC (c : Char) : Char :=
  if 65 ≤ c.toNat ∧ c.toNat ≤ 90 then Char.ofNat (c.toNat + 32) else c

/-- ASCII lower-casing of a string. -/
def lowerS (s : String) : String := String.mk (s.data.map lowerC)

/-- Is the first list a prefix of the second? -/
def isPrefL : List Char → List Char → Bool
  | [], _ => true
  | _ :: _, [] => false
  | a :: as, b :: bs => if a = b then isPrefL as bs else false

/-- Is the first list a suffix of the second? -/
def isSufL (suf l : List Char) : Bool := isPrefL suf.reverse l.reverse

/-- Does `hay` contain `needle` as a contiguous sublist
(JavaScript String.prototype.includes)? -/
def containsL : List Char → List Char → Bool
  | [], needle => needle.isEmpty
  | c :: t, needle => if isPrefL needle (c :: t) then true else containsL t needle

/-- JavaScript `hay.includes(needle)`. -/
def containsS (hay needle : String) : Bool := containsL hay.data needle.data

/-! ## Percent-encoding codec (encodeURIComponent / decodeURIComponent) -/

/-- Upper-case hexadecimal digit for a value below 16. -/
def hexDigitU (d : Nat) : Char :=
  match d with
  | 0 => '0' | 1 => '1' | 2 => '2' | 3 => '3' | 4 => '4'
  | 5 => '5' | 6 => '6' | 7 => '7' | 8 => '8' | 9 => '9'
  | 10 => 'A' | 11 => 'B' | 12 => 'C' | 13 => 'D' | 14 => 'E'
  | 15 => 'F' | _ => '0'

/-- Value of a (case-insensitive) hexadecimal digit character. -/
def hexVal (c : Char) : Option Nat :=
  if 48 ≤ c.toNat ∧ c.toNat ≤ 57 then some (c.toNat - 48)
  else if 65 ≤ c.toNat ∧ c.toNat ≤ 70 then some (c.toNat - 55)
  else if 97 ≤ c.toNat ∧ c.toNat ≤ 102 then some (c.toNat - 87)
  else none

/-- Standard UTF-8 encoding of one Unicode scalar value, as byte values. -/
def utf8EncodeChar (c : Char) : List Nat :=
  if c.toNat < 0x80 then [c.toNat]
  else if c.toNat < 0x800 then [0xC0 + c.toNat / 64, 0x80 + c.toNat % 64]
  else if c.toNat < 0x10000 then
    [0xE0 + c.toNat / 4096, 0x80 + (c.toNat / 64) % 64, 0x80 + c.toNat % 64]
  else
    [0xF0 + c.toNat / 262144, 0x80 + (c.toNat / 4096) % 64,
      0x80 + (c.toNat / 64) % 64, 0x80 + c.toNat % 64]

/-- Strict UTF-8 decoding of a byte sequence (rejecting overlong forms,
surrogates and out-of-range values, as the ECMAScript URI decoding does),
written as a byte-at-a-time machine.  The state carries the number of
continuation bytes still expected, the total sequence length and the value
accumulated so far. -/
def utf8D : Option (Nat × Nat × Nat) → List Nat → Option (List Char)
  | none, [] => some []
  | some _, [] => none
  | none, b :: bs =>
    if b < 0x80 then (utf8D none bs).map (fun l => Char.ofNat b :: l)
    else if b < 0xC2 then none
    else if b < 0xE0 then utf8D (some (1, 2, b - 0xC0)) bs
    else if b < 0xF0 then utf8D (some (2, 3, b - 0xE0)) bs
    else if b < 0xF5 then utf8D (some (3, 4, b - 0xF0)) bs
    else none
  | some (rem, len, val), b :: bs =>
    if 0x80 ≤ b ∧ b < 0xC0 then
      if rem = 1 then
        if (len = 2 → 0x80 ≤ val * 64 + (b - 0x80)) ∧
           (len = 3 → 0x800 ≤ val * 64 + (b - 0x80) ∧
             ¬(0xD800 ≤ val * 64 + (b - 0x80) ∧ val * 64 + (b - 0x80) < 0xE000)) ∧
           (len = 4 → 0x10000 ≤ val * 64 + (b - 0x80) ∧ val * 64 + (b - 0x80) < 0x110000) then
          (utf8D none bs).map (fun l => Char.ofNat (val * 64 + (b - 0x80)) :: l)
        else none
      else utf8D (some (rem - 1, len, val * 64 + (b - 0x80))) bs
    else none

/-- Strict UTF-8 decoding of a complete byte sequence. -/
def utf8Decode (bs : List Nat) : Option (List Char) := utf8D none bs

/-- Characters encodeURIComponent leaves unescaped:
A-Z a-z 0-9 - _ . ! ~ * apostrophe ( ). -/
def unreservedChar (c : Char) : Bool :=
  c.isAlpha || c.isDigit ||
    decide (c = '-' ∨ c = '_' ∨ c = '.' ∨ c = '!' ∨ c = '~' ∨ c = '*' ∨
      c = Char.ofNat 39 ∨ c = '(' ∨ c = ')')

/-- The percent triple `%XY` for one byte. -/
def pctTriple (b : Nat) : List Char := ['%', hexDigitU (b / 16), hexDigitU (b % 16)]

/-- Encoding of one character under encodeURIComponent. -/
def encChar (c : Char) : List Char :=
  if unreservedChar c then [c] else (utf8EncodeChar c).flatMap pctTriple

/-- JavaScript `encodeURIComponent`. -/
def encodeURIComponent (s : String) : String := String.mk (s.data.flatMap encChar)

/-- First phase of decodeURIComponent as a character-at-a-time machine:
turn the character sequence into the byte sequence it denotes (`%XY`
becomes one byte, any other character contributes its UTF-8 bytes); fails
on a malformed percent escape.  The state records whether a `%` (and
possibly its first hex digit) has just been read. -/
def pctD : Option (Option Nat) → List Char → Option (List Nat)
  | none, [] => some []
  | some _, [] => none
  | none, c :: rest =>
    if c = '%' then pctD (some none) rest
    else (pctD none rest).map (fun l => utf8EncodeChar c ++ l)
  | some none, c :: rest =>
    match hexVal c with
    | some a => pctD (some (some a)) rest
    | none => none
  | some (some a), c :: rest =>
    match hexVal c with
    | some b => (pctD none rest).map (fun l => (16 * a + b) :: l)
    | none => none

/-- First phase of decodeURIComponent on a complete character sequence. -/
def percentToBytes (cs : List Char) : Option (List Nat) := pctD none cs

/-- JavaScript `decodeURIComponent`; `none` models the thrown URIError. -/
def decodeURIComponent (s : String) : Option String :=
  match percentToBytes s.data with
  | none => none
  | some bs =>
    match utf8Decode bs with
    | none => none
    | some cs => some (String.mk cs)

/-! ## URL model (the subset of WHATWG `new URL` the handler can reach) -/

/-- A parsed http/https URL: scheme flag, optional raw userinfo, lower-cased
host, optional non-default port, normalised path segments, optional
percent-encoded query and fragment. -/
structure HttpURL where
  secure : Bool
  userinfo : Option String
  host : String
  port : Option Nat
  pathSegs : List String
  query : Option String
  fragment : Option String
deriving DecidableEq, Repr

/-- A parsed URL: either an http/https URL with full structure, or an
opaque non-special URL kept as scheme plus remainder. -/
inductive URLv where
  | http (u : HttpURL)
  | other (scheme : String) (rest : String)
deriving DecidableEq, Repr

/-- The `protocol` property of a parsed URL. -/
def urlProtocol : URLv → String
  | .http u => if u.secure then ("https:") else ("http:")
  | .other sch _ => sch ++ (":")

/-- Characters outside the printable ASCII range (always percent-encoded). -/
def isC0OrHigh (c : Char) : Bool := decide (c.toNat < 32 ∨ 126 < c.toNat)

/-- Fragment percent-encode set of the URL standard. -/
def fragEncSet (c : Char) : Bool :=
  isC0OrHigh c ||
    decide (c = ' ' ∨ c = Char.ofNat 34 ∨ c = '<' ∨ c = '>' ∨ c = Char.ofNat 96)

/-- Path percent-encode set of the URL standard. -/
def pathEncSet (c : Char) : Bool :=
  fragEncSet c || decide (c = '#' ∨ c = '?' ∨ c = Char.ofNat 123 ∨ c = Char.ofNat 125)

/-- Special-scheme query percent-encode set of the URL standard. -/
def queryEncSet (c : Char) : Bool :=
  isC0OrHigh c ||
    decide (c = ' ' ∨ c = Char.ofNat 34 ∨ c = '#' ∨ c = '<' ∨ c = '>' ∨ c = Char.ofNat 39)

/-- Percent-encode the characters of a component selected by `p`. -/
def pctEncodeWith (p : Char → Bool) (cs : List Char) : List Char :=
  cs.flatMap (fun c => if p c then (utf8EncodeChar c).flatMap pctTriple else [c])

/-- Is the character a path separator (`/`, or `\` which special schemes
treat identically)? -/
def slashC (c : Char) : Bool := decide (c = '/' ∨ c = Char.ofNat 92)

/-- Split a character list at every character satisfying `p`
(JavaScript String.prototype.split with a single-character class). -/
def splitPred (p : Char → Bool) : List Char → List (List Char)
  | [] => [[]]
  | c :: rest =>
    if p c then [] :: splitPred p rest
    else
      match splitPred p rest with
      | [] => [[c]]
      | h :: t => (c :: h) :: t

/-- Split a character list on path separators. -/
def splitSlash (cs : List Char) : List (List Char) := splitPred slashC cs

/-- Count the dots a segment denotes, where a dot is `.` or a
case-insensitive `%2e`; `none` if the segment is not made of dots only. -/
def dotsOnly : List Char → Option Nat
  | [] => some 0
  | '.' :: r => (dotsOnly r).map (fun n => n + 1)
  | '%' :: c2 :: c3 :: r =>
    if c2 = '2' ∧ (c3 = 'e' ∨ c3 = 'E') then (dotsOnly r).map (fun n => n + 1) else none
  | _ => none

/-- Single-dot path segment test of the URL standard. -/
def isDot1 (s : List Char) : Bool := decide (dotsOnly s = some 1)

/-- Double-dot path segment test of the URL standard. -/
def isDot2 (s : List Char) : Bool := decide (dotsOnly s = some 2)

/-- Process raw path segments against an accumulator of already-normalised
segments: single dots vanish, double dots pop, other segments are
percent-encoded and pushed; a trailing dot segment leaves a trailing empty
segment, per the URL standard path state. -/
def normSegs (acc : List (List Char)) : List (List Char) → List (List Char)
  | [] => acc
  | s :: rest =>
    if isDot1 s then (if rest.isEmpty then acc ++ [[]] else normSegs acc rest)
    else if isDot2 s then
      (if rest.isEmpty then acc.dropLast ++ [[]] else normSegs acc.dropLast rest)
    else normSegs (acc ++ [pctEncodeWith pathEncSet s]) rest

/-- Parse a path (starting at its leading slash, possibly empty) into
normalised segments. -/
def pathSegsOf (pathCs : List Char) : List String :=
  match pathCs with
  | [] => [String.mk []]
  | c :: rest =>
    let body := if slashC c then rest else c :: rest
    let ns := normSegs [] (splitSlash body)
    (if ns.isEmpty then [[]] else ns).map (fun l => String.mk l)

/-- Forbidden host code points of the URL standard (the model also rejects
non-ASCII hosts rather than modelling IDNA, which the handler never needs). -/
def forbiddenHost (c : Char) : Bool :=
  decide (c.toNat = 0 ∨ c.toNat = 9 ∨ c.toNat = 10 ∨ c.toNat = 13 ∨ c = ' ' ∨ c = '#' ∨
    c = '/' ∨ c = ':' ∨ c = '<' ∨ c = '>' ∨ c = '?' ∨ c = '@' ∨ c = '[' ∨
    c = Char.ofNat 92 ∨ c = ']' ∨ c = '^' ∨ c = '|' ∨ 127 ≤ c.toNat)

/-- Parse and normalise a host; fails when empty or containing a forbidden
code point. -/
def hostParse (cs : List Char) : Option String :=
  if cs.isEmpty then none
  else if cs.any forbiddenHost then none
  else some (lowerS (String.mk cs))

/-- Parse a port string: empty means no port, digits below 2^16 give a
port, anything else is a failure. -/
def parsePort (cs : List Char) : Option (Option Nat) :=
  if cs.isEmpty then some none
  else if cs.all (fun c => c.isDigit) then
    (fun v => if v < 65536 then some (some v) else none)
      (cs.foldl (fun a c => a * 10 + (c.toNat - 48)) 0)
  else none

/-- Split the authority at its last `@` into optional userinfo and
host-port. -/
def splitUserinfo (auth : List Char) : Option String × List Char :=
  match (auth.reverse.span (fun c => decide (¬ c = '@'))) with
  | (_, []) => (none, auth)
  | (revHp, _ :: revUi) => (some (String.mk revUi.reverse), revHp.reverse)

/-- Split host-port at the first `:`. -/
def splitPort (hp : List Char) : List Char × Option (List Char) :=
  match (hp.span (fun c => decide (¬ c = ':'))) with
  | (h, []) => (h, none)
  | (h, _ :: pr) => (h, some pr)

/-- Parse the query/fragment tail of a URL. -/
def parseQF (cs : List Char) : Option String × Option String :=
  match cs with
  | '?' :: r =>
    (match (r.span (fun c => decide (¬ c = '#'))) with
      | (q, []) => (some (String.mk (pctEncodeWith queryEncSet q)), none)
      | (q, _ :: f) => (some (String.mk (pctEncodeWith queryEncSet q)),
          some (String.mk (pctEncodeWith fragEncSet f))))
  | '#' :: r => (none, some (String.mk (pctEncodeWith fragEncSet r)))
  | _ => (none, none)

/-- Parse an http/https URL after its scheme and any run of leading
slashes: authority, then path, query and fragment. -/
def parseHttpAfterSlashes (secure : Bool) (cs : List Char) : Option URLv :=
  match (cs.span (fun c => !(slashC c || decide (c = '?' ∨ c = '#')))) with
  | (auth, rest) =>
    match splitUserinfo auth with
    | (ui, hp) =>
      match splitPort hp with
      | (hostCs, portCs) =>
        match hostParse hostCs with
        | none => none
        | some host =>
          match (match portCs with
                 | none => some none
                 | some pr => parsePort pr) with
          | none => none
          | some port0 =>
            let port := match port0 with
              | some p => if p = (if secure then 443 else 80) then none else some p
              | none => none
            match (rest.span (fun c => decide (¬ (c = '?' ∨ c = '#')))) with
            | (pathCs, qfCs) =>
              match parseQF qfCs with
              | (q, f) => some (.http ⟨secure, ui, host, port, pathSegsOf pathCs, q, f⟩)

/-- Does the character list begin with a run of two slashes? -/
def startsSlash2 : List Char → Bool
  | c1 :: c2 :: _ => slashC c1 && slashC c2
  | _ => false

/-- Is the character an ASCII scheme character? -/
def schemeChar (c : Char) : Bool :=
  c.isAlpha || c.isDigit || decide (c = '+' ∨ c = '-' ∨ c = '.')

/-- Split a leading `scheme:` off a URL string, lower-casing the scheme. -/
def splitScheme (cs : List Char) : Option (String × List Char) :=
  match cs with
  | [] => none
  | c :: _ =>
    if c.isAlpha then
      match cs.drop (cs.takeWhile schemeChar).length with
      | ':' :: r => some (lowerS (String.mk (cs.takeWhile schemeChar)), r)
      | _ => none
    else none

/-- JavaScript `new URL(s)` on the inputs the handler can produce. -/
def parseURL (s : String) : Option URLv :=
  match splitScheme s.data with
  | none => none
  | some (sch, rest) =>
    if sch = ("http") ∨ sch = ("https") then
      parseHttpAfterSlashes (sch = ("https")) (rest.dropWhile slashC)
    else some (.other sch (String.mk rest))

/-- Serialised path of an http URL. -/
def pathString (segs : List String) : String :=
  segs.foldl (fun acc s => acc ++ ("/") ++ s) ("")

/-- Serialisation (`href` / `toString`) of an http URL. -/
def httpToString (u : HttpURL) : String :=
  (if u.secure then ("https://") else ("http://")) ++
  (match u.userinfo with | some ui => ui ++ ("@") | none => ("")) ++
  u.host ++
  (match u.port with | some p => (":") ++ toString p | none => ("")) ++
  pathString u.pathSegs ++
  (match u.query with | some q => ("?") ++ q | none => ("")) ++
  (match u.fragment with | some f => ("#") ++ f | none => (""))

/-- Serialisation of a parsed URL. -/
def urlToString : URLv → String
  | .http u => httpToString u
  | .other sch rest => sch ++ (":") ++ rest

/-- Resolve a scheme-less reference against an http base URL
(`new URL(ref, base)` for relative references). -/
def resolveRel (cs : List Char) (base : HttpURL) : Option URLv :=
  match cs with
  | [] =>
    some (.http ⟨base.secure, base.userinfo, base.host, base.port,
      base.pathSegs, base.query, none⟩)
  | '#' :: r =>
    some (.http ⟨base.secure, base.userinfo, base.host, base.port, base.pathSegs,
      base.query, some (String.mk (pctEncodeWith fragEncSet r))⟩)
  | '?' :: r =>
    (match (r.span (fun c => decide (¬ c = '#'))) with
      | (q, fr) =>
        some (.http ⟨base.secure, base.userinfo, base.host, base.port, base.pathSegs,
          some (String.mk (pctEncodeWith queryEncSet q)),
          match fr with
          | [] => none
          | _ :: f => some (String.mk (pctEncodeWith fragEncSet f))⟩))
  | c :: r =>
    if slashC c then
      if startsSlash2 (c :: r) then
        parseHttpAfterSlashes base.secure ((c :: r).dropWhile slashC)
      else
        match ((c :: r).span (fun x => decide (¬ (x = '?' ∨ x = '#')))) with
        | (pathCs, qfCs) =>
          match parseQF qfCs with
          | (q, f) =>
            some (.http ⟨base.secure, base.userinfo, base.host, base.port,
              pathSegsOf pathCs, q, f⟩)
    else
      match ((c :: r).span (fun x => decide (¬ (x = '?' ∨ x = '#')))) with
      | (pathCs, qfCs) =>
        let ns := normSegs ((base.pathSegs.dropLast).map (fun s => s.data)) (splitSlash pathCs)
        match parseQF qfCs with
        | (q, f) =>
          some (.http ⟨base.secure, base.userinfo, base.host, base.port,
            (if ns.isEmpty then [[]] else ns).map (fun l => String.mk l), q, f⟩)

/-- JavaScript `new URL(ref, base)` for an http base: an absolute http(s)
reference with authority restarts parsing, a same-scheme reference without
`//` is treated relatively, a non-special scheme gives an opaque URL, and a
scheme-less reference resolves against the base. -/
def resolve (ref : String) (base : HttpURL) : Option URLv :=
  match splitScheme ref.data with
  | some (sch, rest) =>
    if sch = ("http") ∨ sch = ("https") then
      if (sch = ("https")) = base.secure ∧ startsSlash2 rest = false then
        resolveRel rest base
      else
        parseHttpAfterSlashes (sch = ("https")) (rest.dropWhile slashC)
    else some (.other sch (String.mk rest))
  | none => resolveRel ref.data base

/-! ## Decode phase of the `/cors/*` route (src/api/index.js lines 33-54) -/

/-- The fixed proxy path literal `PREFIX`. -/
def pfx : String := "/cors/"

/-- The scheme-presence test `/^https?:\/\//i` of the handler. -/
def testHttpScheme (s : String) : Bool :=
  isPrefL ("http://").data (lowerS s).data || isPrefL ("https://").data (lowerS s).data

/-- `isValidUrl` of the source: the string parses as a URL whose protocol
is `http:` or `https:`. -/
def isValidUrl (s : String) : Bool :=
  match parseURL s with
  | some u => if urlProtocol u = ("http:") ∨ urlProtocol u = ("https:") then true else false
  | none => false

/-- A response the proxy hands to the client: status, headers (names kept
lower-case) and body text. -/
structure ProxyResp where
  status : Nat
  headers : List (String × String)
  body : String
deriving DecidableEq, Repr

deriving instance DecidableEq for Except

/-- The decode pipeline of the handler on the path remainder after
`/cors/`: reject the empty remainder, percent-decode (a failure is the
caught URIError), default a missing scheme to `http://`, then validate;
the result is the validated target string. -/
def decodeTargetStr (encoded : String) : Except String String :=
  if encoded = ("") then .error ("Target URL is missing after /cors/")
  else
    match decodeURIComponent encoded with
    | none => .error ("Invalid URL encoding.")
    | some t0 =>
      let target := if testHttpScheme t0 then t0 else ("http://") ++ t0
      if isValidUrl target then .ok target
      else .error ("Invalid target URL or unsupported protocol.")

/-- The decode pipeline applied to a full original URL, slicing off the
six characters of the prefix as `req.originalUrl.slice(PREFIX.length)`. -/
def routeDecodeStr (originalUrl : String) : Except String String :=
  decodeTargetStr (String.mk (originalUrl.data.drop pfx.data.length))

/-- The decode phase as the handler uses it: an error is the 400 response
sent without any upstream request, success is the parsed target URL used
for forwarding. -/
def routePhase (encoded : String) : Except ProxyResp HttpURL :=
  match decodeTargetStr encoded with
  | .error msg => .error ⟨400, [], msg⟩
  | .ok target =>
    match parseURL target with
    | some (.http u) => .ok u
    | _ => .error ⟨400, [], ("Invalid target URL or unsupported protocol.")⟩

/-! ## Header machinery (Headers object and Express response headers) -/

/-- First-match lookup in a header/attribute list. -/
def hGet : List (String × String) → String → Option String
  | [], _ => none
  | (k, v) :: t, n => if k = n then some v else hGet t n

/-- Set a name to a value: replace the first binding or append a new one
(Headers.set / res.setHeader / cheerio attr assignment). -/
def hSet : List (String × String) → String → String → List (String × String)
  | [], n, v => [(n, v)]
  | (k, w) :: t, n, v => if k = n then (k, v) :: t else (k, w) :: hSet t n v

/-- Remove all bindings of a name (res.removeHeader). -/
def hRemove (h : List (String × String)) (n : String) : List (String × String) :=
  h.filter (fun e => decide (¬ e.1 = n))

/-- `new Headers(upstreamResponse.headers)`: fold the raw pairs through
`set`, lower-casing every name. -/
def mkHeaders (l : List (String × String)) : List (String × String) :=
  l.foldl (fun acc e => hSet acc (lowerS e.1) e.2) []

/-- Lower-case names of the headers the handler manipulates. -/
def acaoK : String := "access-control-allow-origin"

/-- Allow-headers CORS header name. -/
def acahK : String := "access-control-allow-headers"

/-- Expose-headers CORS header name. -/
def acehK : String := "access-control-expose-headers"

/-- Content-type header name. -/
def ctK : String := "content-type"

/-- Content-length header name. -/
def clK : String := "content-length"

/-- Content-encoding header name. -/
def ceK : String := "content-encoding"

/-- Location header name. -/
def locK : String := "location"

/-- The proxy-addressed form of an absolute URL:
`hostOrigin + PREFIX + encodeURIComponent(url)`. -/
def proxied (ho : String) (abs : URLv) : String :=
  ho ++ pfx ++ encodeURIComponent (urlToString abs)

/-- The CORS triple set on the response headers before copying. -/
def corsSet (h : List (String × String)) : List (String × String) :=
  hSet (hSet (hSet h acaoK ("*")) acahK ("*")) acehK ("*")

/-- Skip condition of the copy loop: content-encoding or content-length is
not copied when the content-type contains `text`. -/
def copySkip (ctText : Bool) (n : String) : Bool :=
  (decide (n = ceK) || decide (n = clK)) && ctText

/-- The `responseHeaders.forEach` copy loop onto the Express response. -/
def copyHeaders (h : List (String × String)) : List (String × String) :=
  h.foldl (fun res e =>
    if copySkip (containsS ((hGet h ctK).getD ("")) ("text")) e.1 then res
    else hSet res e.1 e.2) []

/-- Removal of content-length (and of content-encoding when present) after
a textual body modification. -/
def afterTextMod (res0 : List (String × String)) : List (String × String) :=
  if (hGet (hRemove res0 clK) ceK).isSome then hRemove (hRemove res0 clK) ceK
  else hRemove res0 clK

/-! ## Markup rewriter (cheerio tree surgery of the text/html branch) -/

mutual
/-- A markup tree: text nodes and elements with attributes and children.
Parsing body text into such a tree and printing it back are capabilities
of the external markup library. -/
inductive HTree where
  | txt (s : String)
  | elem (tag : String) (attrs : List (String × String)) (kids : HForest)
/-- A list of sibling markup trees. -/
inductive HForest where
  | nil
  | cons (t : HTree) (ts : HForest)
end

/-- One `rewriteAttribute` step on one element: if the attribute is present
and non-empty (the truthiness guard `if (val)`), resolve it against the
target and replace it with the proxied absolute URL; a resolution failure
(the caught exception) leaves the attribute untouched. -/
def rewriteAttrVal (ho : String) (target : HttpURL) (attrs : List (String × String))
    (attr : String) : List (String × String) :=
  match hGet attrs attr with
  | some v =>
    if v = ("") then attrs
    else
      match resolve v target with
      | some abs => hSet attrs attr (proxied ho abs)
      | none => attrs
  | none => attrs

/-- JavaScript whitespace class `\s` (the part the proxy can meet). -/
def isJsWs (c : Char) : Bool :=
  decide (c = ' ' ∨ c.toNat = 9 ∨ c.toNat = 10 ∨ c.toNat = 11 ∨ c.toNat = 12 ∨
    c.toNat = 13 ∨ c.toNat = 160 ∨ c.toNat = 0xFEFF)

/-- JavaScript String.prototype.trim. -/
def trimL (cs : List Char) : List Char :=
  ((cs.dropWhile isJsWs).reverse.dropWhile isJsWs).reverse

/-- `part.trim().split(/\s+/)` of the srcset loop: whitespace-run tokens,
with the JavaScript convention that an empty string yields one empty
token. -/
def splitWsTokens (cs : List Char) : List (List Char) :=
  if cs.isEmpty then [[]]
  else (splitPred isJsWs cs).filter (fun l => !l.isEmpty)

/-- Join parts with a separator (`Array.prototype.join`). -/
def joinSep (sep : List Char) : List (List Char) → List Char
  | [] => []
  | [x] => x
  | x :: y :: t => x ++ sep ++ joinSep sep (y :: t)

/-- One srcset candidate: trim, split into URL and optional descriptor,
resolve and proxy the URL keeping the descriptor; on resolution failure
return the original part verbatim. -/
def srcsetPart (ho : String) (target : HttpURL) (part : List Char) : List Char :=
  match splitWsTokens (trimL part) with
  | toks =>
    match resolve (String.mk (toks.headD [])) target with
    | some abs =>
      (proxied ho abs).data ++ (match (toks.drop 1).head? with
        | some d => ' ' :: d
        | none => [])
    | none => part

/-- The srcset pass on one element's attributes: split on commas, rewrite
each candidate, rejoin with `, ` (under the same truthiness guard). -/
def rewriteSrcset (ho : String) (target : HttpURL)
    (attrs : List (String × String)) : List (String × String) :=
  match hGet attrs ("srcset") with
  | some v =>
    if v = ("") then attrs
    else hSet attrs ("srcset")
      (String.mk (joinSep [',', ' ']
        ((splitPred (fun c => decide (c = ',')) v.data).map (srcsetPart ho target))))
  | none => attrs

/-- The per-element effect of the sequence of tree passes of the text/html
branch: img.src, script.src, link.href, a.href, form.action, then srcset
on img and source, in source order. -/
def elemRewrite (ho : String) (target : HttpURL) (tag : String)
    (attrs : List (String × String)) : List (String × String) :=
  let a1 := if tag = ("img") then rewriteAttrVal ho target attrs ("src") else attrs
  let a2 := if tag = ("script") then rewriteAttrVal ho target a1 ("src") else a1
  let a3 := if tag = ("link") then rewriteAttrVal ho target a2 ("href") else a2
  let a4 := if tag = ("a") then rewriteAttrVal ho target a3 ("href") else a3
  let a5 := if tag = ("form") then rewriteAttrVal ho target a4 ("action") else a4
  if tag = ("img") ∨ tag = ("source") then rewriteSrcset ho target a5 else a5

mutual
/-- Apply an attribute transformation to every element of a tree (the
effect of a cheerio `$(selector).each` pass over the whole document). -/
def treeMap (g : String → List (String × String) → List (String × String)) : HTree → HTree
  | .txt s => .txt s
  | .elem t a ks => .elem t (g t a) (forestMap g ks)
/-- Apply an attribute transformation to every element of a forest. -/
def forestMap (g : String → List (String × String) → List (String × String)) :
    HForest → HForest
  | .nil => .nil
  | .cons t ts => .cons (treeMap g t) (forestMap g ts)
end

/-- The whole markup rewrite of the text/html branch on the parsed tree. -/
def markupRewrite (ho : String) (target : HttpURL) (t : HTree) : HTree :=
  treeMap (elemRewrite ho target) t

/-! ## Source-text rewriter (the two regex replace passes) -/

/-- The double-quote character. -/
def qDq : Char := Char.ofNat 34

/-- The single-quote character. -/
def qSq : Char := Char.ofNat 39

/-- The backtick character. -/
def qBt : Char := Char.ofNat 96

/-- Opening delimiters of the first regex: quote, backtick or `(`. -/
def isOpenDelim (c : Char) : Bool := decide (c = qDq ∨ c = qSq ∨ c = qBt ∨ c = '(')

/-- Optional closing delimiters of the first regex: quote, backtick
or `)`. -/
def isCloseDelim (c : Char) : Bool := decide (c = qDq ∨ c = qSq ∨ c = qBt ∨ c = ')')

/-- Characters admitted by the first regex's URL run
(the class excluding quote, backtick, `)` and whitespace). -/
def urlRunChar (c : Char) : Bool :=
  !(decide (c = qDq ∨ c = qSq ∨ c = qBt ∨ c = ')') || isJsWs c)

/-- Characters admitted by the dynamic-import regex's URL run
(the class excluding quotes, backtick and whitespace). -/
def urlRunChar2 (c : Char) : Bool :=
  !(decide (c = qDq ∨ c = qSq ∨ c = qBt) || isJsWs c)

/-- Try the body of the first regex just after an opening delimiter:
`https?:\/\/` then a non-empty greedy URL run, then an optional closing
delimiter.  Returns the URL characters (group 2), the consumed optional
closing delimiter and the remainder. -/
def tryUrl (cs : List Char) : Option (List Char × List Char × List Char) :=
  match cs with
  | 'h' :: 't' :: 't' :: 'p' :: r =>
    (match (match r with
            | 's' :: rr => ((['s'] : List Char), rr)
            | _ => (([] : List Char), r)) with
     | (sPart, r2) =>
       match r2 with
       | ':' :: '/' :: '/' :: r3 =>
         (fun run =>
           if run.isEmpty then none
           else
             (fun urlCs =>
               match r3.drop run.length with
               | [] => some (urlCs, ([] : List Char), ([] : List Char))
               | c2 :: r5 =>
                 if isCloseDelim c2 then some (urlCs, [c2], r5)
                 else some (urlCs, ([] : List Char), c2 :: r5))
             (('h' :: 't' :: 't' :: 'p' :: sPart) ++ (':' :: '/' :: '/' :: run)))
         (r3.takeWhile urlRunChar)
       | _ => none)
  | _ => none

/-- The first replace pass (delimiter-bounded absolute URLs), as a
left-to-right scanner with fuel; the fuel is instantiated with the input
length, which every step strictly decreases.  A candidate failing URL
validation is emitted verbatim (the caught exception returning `match`). -/
def pass1F (ho : String) : Nat → List Char → List Char
  | 0, cs => cs
  | _ + 1, [] => []
  | n + 1, c :: rest =>
    if isOpenDelim c then
      match tryUrl rest with
      | some (url, close, rem) =>
        c :: ((if (parseURL (String.mk url)).isSome then
                ho.data ++ pfx.data ++ (encodeURIComponent (String.mk url)).data
              else url) ++ close ++ pass1F ho n rem)
      | none => c :: pass1F ho n rest
    else c :: pass1F ho n rest

/-- The first replace pass on a body string. -/
def pass1 (ho body : String) : String := String.mk (pass1F ho body.data.length body.data)

/-- Try the dynamic-import regex at the current position:
`import\s*\(\s*(["one-of-three-quotes])(https?:\/\/[^quotes-ws]+)\1\s*\)`.
Returns the full matched text (for the verbatim failure case), the URL
characters, the quote and the remainder. -/
def tryImport (cs : List Char) : Option (List Char × List Char × Char × List Char) :=
  match cs with
  | 'i' :: 'm' :: 'p' :: 'o' :: 'r' :: 't' :: r =>
    (match r.span isJsWs with
     | (w1, r1) =>
       match r1 with
       | '(' :: r2 =>
         (match r2.span isJsWs with
          | (w2, r3) =>
            match r3 with
            | q :: r4 =>
              if decide (q = qDq ∨ q = qSq ∨ q = qBt) then
                match r4 with
                | 'h' :: 't' :: 't' :: 'p' :: r5 =>
                  (match (match r5 with
                          | 's' :: rr => ((['s'] : List Char), rr)
                          | _ => (([] : List Char), r5)) with
                   | (sPart, r6) =>
                     match r6 with
                     | ':' :: '/' :: '/' :: r7 =>
                       (fun run =>
                         if run.isEmpty then none
                         else
                           (fun urlCs =>
                             match r7.drop run.length with
                             | c2 :: r8 =>
                               if c2 = q then
                                 match r8.span isJsWs with
                                 | (w3, r9a) =>
                                   match r9a with
                                   | ')' :: r9 =>
                                     some ((('i' :: 'm' :: 'p' :: 'o' :: 'r' :: 't' :: w1) ++
                                       ('(' :: w2) ++ (q :: urlCs) ++ (q :: w3) ++ [')'],
                                       urlCs, q, r9))
                                   | _ => none
                               else none
                             | [] => none)
                           (('h' :: 't' :: 't' :: 'p' :: sPart) ++ (':' :: '/' :: '/' :: run)))
                       (r7.takeWhile urlRunChar2)
                     | _ => none)
                | _ => none
              else none
            | [] => none)
       | _ => none)
  | _ => none

/-- The dynamic-import replace pass, as a scanner with fuel. -/
def pass2F (ho : String) : Nat → List Char → List Char
  | 0, cs => cs
  | _ + 1, [] => []
  | n + 1, c :: rest =>
    match tryImport (c :: rest) with
    | some (orig, url, q, rem) =>
      (if (parseURL (String.mk url)).isSome then
        ('i' :: 'm' :: 'p' :: 'o' :: 'r' :: 't' :: '(' ::
          (q :: (ho.data ++ pfx.data ++ (encodeURIComponent (String.mk url)).data))) ++
          (q :: [')'])
      else orig) ++ pass2F ho n rem
    | none => c :: pass2F ho n rest

/-- The dynamic-import replace pass on a body string. -/
def pass2 (ho body : String) : String := String.mk (pass2F ho body.data.length body.data)

/-- The whole source-text rewrite: the delimiter pass followed by the
dynamic-import pass on its output. -/
def codeRewrite (ho body : String) : String := pass2 ho (pass1 ho body)

/-! ## Response classification and the four strategies -/

/-- The upstream response as the handler sees it: status, raw header pairs
and the body decoded as text. -/
structure UpResp where
  status : Nat
  headers : List (String × String)
  bodyText : String
deriving DecidableEq, Repr

/-- The four rewrite strategies. -/
inductive Strategy where
  | redirect | markup | sourceText | passthrough
deriving DecidableEq, Repr

/-- The redirect branch condition: status in [300,400) and a location
header present. -/
def redirB (up : UpResp) : Bool :=
  decide (300 ≤ up.status) && decide (up.status < 400) &&
    (hGet (mkHeaders up.headers) locK).isSome

/-- `responseHeaders.get('content-type') || ''`. -/
def ctOf (up : UpResp) : String := (hGet (mkHeaders up.headers) ctK).getD ("")

/-- The markup branch condition: content-type contains `text/html`. -/
def htmlB (up : UpResp) : Bool := containsS (ctOf up) ("text/html")

/-- The source-text branch condition: path extension `.ts/.js/.mjs/.cjs`
(case-insensitive) and content-type containing `javascript`, `typescript`
or `text/plain`. -/
def isCodeB (target : HttpURL) (up : UpResp) : Bool :=
  (isSufL (".ts").data (lowerS (pathString target.pathSegs)).data ||
   isSufL (".js").data (lowerS (pathString target.pathSegs)).data ||
   isSufL (".mjs").data (lowerS (pathString target.pathSegs)).data ||
   isSufL (".cjs").data (lowerS (pathString target.pathSegs)).data) &&
  (containsS (ctOf up) ("javascript") || containsS (ctOf up) ("typescript") ||
   containsS (ctOf up) ("text/plain"))

/-- The classifier decision, first match first. -/
def classify (target : HttpURL) (up : UpResp) : Strategy :=
  if redirB up then .redirect
  else if htmlB up then .markup
  else if isCodeB target up then .sourceText
  else .passthrough

/-- The redirect branch: resolve the location against the target, rewrite
it through the codec, answer with the original status, the rewritten
location plus the two CORS headers set on this path, and an empty body; a
location that fails to resolve falls to the outer catch (500 with the two
CORS headers). -/
def redirectPart (ho : String) (target : HttpURL) (up : UpResp) : ProxyResp :=
  match hGet (mkHeaders up.headers) locK with
  | some loc =>
    match resolve loc target with
    | some abs =>
      ⟨up.status, [(locK, proxied ho abs), (acaoK, ("*")), (acahK, ("*"))], ("")⟩
    | none => ⟨500, [(acaoK, ("*")), (acahK, ("*"))], ("Proxy server error")⟩
  | none => ⟨500, [(acaoK, ("*")), (acahK, ("*"))], ("Proxy server error")⟩

/-- The text/html branch: copied headers minus the body-length metadata,
and the reserialised rewritten tree as body. -/
def markupPart (ph : String → HTree) (pr : HTree → String) (ho : String)
    (target : HttpURL) (up : UpResp) : ProxyResp :=
  ⟨up.status, afterTextMod (copyHeaders (corsSet (mkHeaders up.headers))),
    pr (markupRewrite ho target (ph up.bodyText))⟩

/-- The code branch: copied headers minus the body-length metadata, and the
regex-rewritten body. -/
def sourcePart (ho : String) (_target : HttpURL) (up : UpResp) : ProxyResp :=
  ⟨up.status, afterTextMod (copyHeaders (corsSet (mkHeaders up.headers))),
    codeRewrite ho up.bodyText⟩

/-- The passthrough branch: copied headers and the body unchanged. -/
def passPart (up : UpResp) : ProxyResp :=
  ⟨up.status, copyHeaders (corsSet (mkHeaders up.headers)), up.bodyText⟩

/-- The upstream-response processing of the handler (the branch sequence
after the axios call), parameterised by the external markup parse and
print capabilities. -/
def handleUpstream (ph : String → HTree) (pr : HTree → String) (ho : String)
    (target : HttpURL) (up : UpResp) : ProxyResp :=
  if redirB up then redirectPart ho target up
  else if htmlB up then markupPart ph pr ho target up
  else if isCodeB target up then sourcePart ho target up
  else passPart up

/-- The same processing, dispatched through an explicit strategy value. -/
def handleByStrategy (ph : String → HTree) (pr : HTree → String) (ho : String)
    (target : HttpURL) (up : UpResp) : Strategy → ProxyResp
  | .redirect => redirectPart ho target up
  | .markup => markupPart ph pr ho target up
  | .sourceText => sourcePart ho target up
  | .passthrough => passPart up

/-- The whole request handling: the decode phase answers 400 on its own
(no upstream request is issued), otherwise the upstream response is
processed. -/
def fullHandler (ph : String → HTree) (pr : HTree → String) (ho : String)
    (encoded : String) (up : UpResp) : ProxyResp :=
  match routePhase encoded with
  | .error r => r
  | .ok target => handleUpstream ph pr ho target up

/-! ## Concrete instances used by witnesses and counterexamples -/

/-- Key list of a header/attribute list. -/
def hKeys (h : List (String × String)) : List String := h.map Prod.fst

/-- A trivial markup parse capability (enough for branches that never use
it, and for bodies treated as opaque). -/
def phD : String → HTree := fun _ => .txt ("")

/-- A trivial markup print capability. -/
def prD : HTree → String := fun _ => ("")

/-- A concrete proxy origin. -/
def hoD : String := "http://proxy.example"

/-- The proxy origin of the server's own default configuration. -/
def hoL : String := "http://localhost:3000"

/-- A concrete target URL, `https://example.com/old`. -/
def tgtD : HttpURL := ⟨true, none, ("example.com"), none, [("old")], none, none⟩

/-- A concrete code-path target URL, `https://h/app.js`. -/
def tgtJs : HttpURL := ⟨true, none, ("h"), none, [("app.js")], none, none⟩

/-- A 301 upstream response with a relative location. -/
def upRedir : UpResp := ⟨301, [(("location"), ("/new"))], ("")⟩

/-- A 301 upstream response whose content-type also says text/html. -/
def upRedirHtml : UpResp :=
  ⟨301, [(("location"), ("/new")), (("content-type"), ("text/html"))], ("")⟩

/-- A binary upstream response carrying content-length and a host header. -/
def upBin : UpResp :=
  ⟨200, [(("content-type"), ("application/octet-stream")), (("content-length"), ("5")),
    (("host"), ("evil"))], ("BODY")⟩

/-- A JavaScript upstream response carrying length and encoding metadata. -/
def upJs : UpResp :=
  ⟨200, [(("content-type"), ("application/javascript")), (("content-length"), ("9")),
    (("content-encoding"), ("gzip"))], ("fetch(\"https://api.example.com/data\")")⟩

/-! ## Round-trip of the percent codec -/

theorem char_valid_nat (c : Char) :
    c.toNat < 0xD800 ∨ (0xDFFF < c.toNat ∧ c.toNat < 0x110000) := c.valid

theorem hexVal_hexDigitU (d : Nat) (h : d < 16) : hexVal (hexDigitU d) = some d := by
  interval_cases d <;> decide

theorem utf8EncodeChar_lt (c : Char) : ∀ b ∈ utf8EncodeChar c, b < 256 := by
  have hv := char_valid_nat c
  intro b hb
  unfold utf8EncodeChar at hb
  split_ifs at hb with h1 h2 h3 <;>
    simp only [List.mem_cons, List.not_mem_nil, or_false] at hb <;>
    omega

theorem utf8D_encodeChar (c : Char) (bs : List Nat) :
    utf8D none (utf8EncodeChar c ++ bs) = (utf8D none bs).map (fun l => c :: l) := by
  have hv := char_valid_nat c
  unfold utf8EncodeChar
  by_cases h1 : c.toNat < 0x80
  · rw [if_pos h1]
    show (if c.toNat < 0x80 then (utf8D none bs).map (fun l => Char.ofNat c.toNat :: l)
      else if c.toNat < 0xC2 then none
      else if c.toNat < 0xE0 then utf8D (some (1, 2, c.toNat - 0xC0)) bs
      else if c.toNat < 0xF0 then utf8D (some (2, 3, c.toNat - 0xE0)) bs
      else if c.toNat < 0xF5 then utf8D (some (3, 4, c.toNat - 0xF0)) bs
      else none) = _
    rw [if_pos h1, Char.ofNat_toNat]
  · rw [if_neg h1]
    by_cases h2 : c.toNat < 0x800
    · rw [if_pos h2]
      set b0 : Nat := 0xC0 + c.toNat / 64 with hb0
      set b1 : Nat := 0x80 + c.toNat % 64 with hb1
      show (if b0 < 0x80 then (utf8D none (b1 :: bs)).map (fun l => Char.ofNat b0 :: l)
        else if b0 < 0xC2 then none
        else if b0 < 0xE0 then utf8D (some (1, 2, b0 - 0xC0)) (b1 :: bs)
        else if b0 < 0xF0 then utf8D (some (2, 3, b0 - 0xE0)) (b1 :: bs)
        else if b0 < 0xF5 then utf8D (some (3, 4, b0 - 0xF0)) (b1 :: bs)
        else none) = _
      rw [if_neg (by omega), if_neg (by omega), if_pos (by omega)]
      show (if 0x80 ≤ b1 ∧ b1 < 0xC0 then
          if (1 : Nat) = 1 then
            if ((2 : Nat) = 2 → 0x80 ≤ (b0 - 0xC0) * 64 + (b1 - 0x80)) ∧
               ((2 : Nat) = 3 → 0x800 ≤ (b0 - 0xC0) * 64 + (b1 - 0x80) ∧
                 ¬(0xD800 ≤ (b0 - 0xC0) * 64 + (b1 - 0x80) ∧
                   (b0 - 0xC0) * 64 + (b1 - 0x80) < 0xE000)) ∧
               ((2 : Nat) = 4 → 0x10000 ≤ (b0 - 0xC0) * 64 + (b1 - 0x80) ∧
                 (b0 - 0xC0) * 64 + (b1 - 0x80) < 0x110000) then
              (utf8D none bs).map (fun l => Char.ofNat ((b0 - 0xC0) * 64 + (b1 - 0x80)) :: l)
            else none
          else utf8D (some (1 - 1, 2, (b0 - 0xC0) * 64 + (b1 - 0x80))) bs
        else none) = _
      rw [if_pos (by omega), if_pos rfl,
        if_pos (⟨fun _ => by omega, fun h => absurd h (by omega),
          fun h => absurd h (by omega)⟩ :
          ((2 : Nat) = 2 → 0x80 ≤ (b0 - 0xC0) * 64 + (b1 - 0x80)) ∧
          ((2 : Nat) = 3 → 0x800 ≤ (b0 - 0xC0) * 64 + (b1 - 0x80) ∧
            ¬(0xD800 ≤ (b0 - 0xC0) * 64 + (b1 - 0x80) ∧
              (b0 - 0xC0) * 64 + (b1 - 0x80) < 0xE000)) ∧
          ((2 : Nat) = 4 → 0x10000 ≤ (b0 - 0xC0) * 64 + (b1 - 0x80) ∧
            (b0 - 0xC0) * 64 + (b1 - 0x80) < 0x110000))]
      rw [show (b0 - 0xC0) * 64 + (b1 - 0x80) = c.toNat from by omega, Char.ofNat_toNat]
    · rw [if_neg h2]
      by_cases h3 : c.toNat < 0x10000
      · rw [if_pos h3]
        set b0 : Nat := 0xE0 + c.toNat / 4096 with hb0
        set b1 : Nat := 0x80 + c.toNat / 64 % 64 with hb1
        set b2 : Nat := 0x80 + c.toNat % 64 with hb2
        show (if b0 < 0x80 then (utf8D none (b1 :: b2 :: bs)).map (fun l => Char.ofNat b0 :: l)
          else if b0 < 0xC2 then none
          else if b0 < 0xE0 then utf8D (some (1, 2, b0 - 0xC0)) (b1 :: b2 :: bs)
          else if b0 < 0xF0 then utf8D (some (2, 3, b0 - 0xE0)) (b1 :: b2 :: bs)
          else if b0 < 0xF5 then utf8D (some (3, 4, b0 - 0xF0)) (b1 :: b2 :: bs)
          else none) = _
        rw [if_neg (by omega), if_neg (by omega), if_neg (by omega), if_pos (by omega)]
        show (if 0x80 ≤ b1 ∧ b1 < 0xC0 then
            if (2 : Nat) = 1 then _
            else utf8D (some (2 - 1, 3, (b0 - 0xE0) * 64 + (b1 - 0x80))) (b2 :: bs)
          else none) = _
        rw [if_pos (by omega), if_neg (by omega)]
        set v1 : Nat := (b0 - 0xE0) * 64 + (b1 - 0x80) with hv1
        show (if 0x80 ≤ b2 ∧ b2 < 0xC0 then
            if (1 : Nat) = 1 then
              if ((3 : Nat) = 2 → 0x80 ≤ v1 * 64 + (b2 - 0x80)) ∧
                 ((3 : Nat) = 3 → 0x800 ≤ v1 * 64 + (b2 - 0x80) ∧
                   ¬(0xD800 ≤ v1 * 64 + (b2 - 0x80) ∧ v1 * 64 + (b2 - 0x80) < 0xE000)) ∧
                 ((3 : Nat) = 4 → 0x10000 ≤ v1 * 64 + (b2 - 0x80) ∧
                   v1 * 64 + (b2 - 0x80) < 0x110000) then
                (utf8D none bs).map (fun l => Char.ofNat (v1 * 64 + (b2 - 0x80)) :: l)
              else none
            else utf8D (some (1 - 1, 3, v1 * 64 + (b2 - 0x80))) bs
          else none) = _
        have hval : v1 * 64 + (b2 - 0x80) = c.toNat := by
          rw [hv1, hb0, hb1, hb2]; omega
        rw [if_pos (by omega), if_pos rfl,
          if_pos (⟨fun h => absurd h (by omega), fun _ => by omega,
            fun h => absurd h (by omega)⟩ :
            ((3 : Nat) = 2 → 0x80 ≤ v1 * 64 + (b2 - 0x80)) ∧
            ((3 : Nat) = 3 → 0x800 ≤ v1 * 64 + (b2 - 0x80) ∧
              ¬(0xD800 ≤ v1 * 64 + (b2 - 0x80) ∧ v1 * 64 + (b2 - 0x80) < 0xE000)) ∧
            ((3 : Nat) = 4 → 0x10000 ≤ v1 * 64 + (b2 - 0x80) ∧
              v1 * 64 + (b2 - 0x80) < 0x110000))]
        rw [hval, Char.ofNat_toNat]
      · rw [if_neg h3]
        set b0 : Nat := 0xF0 + c.toNat / 262144 with hb0
        set b1 : Nat := 0x80 + c.toNat / 4096 % 64 with hb1
        set b2 : Nat := 0x80 + c.toNat / 64 % 64 with hb2
        set b3 : Nat := 0x80 + c.toNat % 64 with hb3
        show (if b0 < 0x80 then
            (utf8D none (b1 :: b2 :: b3 :: bs)).map (fun l => Char.ofNat b0 :: l)
          else if b0 < 0xC2 then none
          else if b0 < 0xE0 then utf8D (some (1, 2, b0 - 0xC0)) (b1 :: b2 :: b3 :: bs)
          else if b0 < 0xF0 then utf8D (some (2, 3, b0 - 0xE0)) (b1 :: b2 :: b3 :: bs)
          else if b0 < 0xF5 then utf8D (some (3, 4, b0 - 0xF0)) (b1 :: b2 :: b3 :: bs)
          else none) = _
        rw [if_neg (by omega), if_neg (by omega), if_neg (by omega), if_neg (by omega),
          if_pos (by omega)]
        show (if 0x80 ≤ b1 ∧ b1 < 0xC0 then
            if (3 : Nat) = 1 then _
            else utf8D (some (3 - 1, 4, (b0 - 0xF0) * 64 + (b1 - 0x80))) (b2 :: b3 :: bs)
          else none) = _
        rw [if_pos (by omega), if_neg (by omega)]
        set v1 : Nat := (b0 - 0xF0) * 64 + (b1 - 0x80) with hv1
        show (if 0x80 ≤ b2 ∧ b2 < 0xC0 then
            if (2 : Nat) = 1 then _
            else utf8D (some (2 - 1, 4, v1 * 64 + (b2 - 0x80))) (b3 :: bs)
          else none) = _
        rw [if_pos (by omega), if_neg (by omega)]
        set v2 : Nat := v1 * 64 + (b2 - 0x80) with hv2
        show (if 0x80 ≤ b3 ∧ b3 < 0xC0 then
            if (1 : Nat) = 1 then
              if ((4 : Nat) = 2 → 0x80 ≤ v2 * 64 + (b3 - 0x80)) ∧
                 ((4 : Nat) = 3 → 0x800 ≤ v2 * 64 + (b3 - 0x80) ∧
                   ¬(0xD800 ≤ v2 * 64 + (b3 - 0x80) ∧ v2 * 64 + (b3 - 0x80) < 0xE000)) ∧
                 ((4 : Nat) = 4 → 0x10000 ≤ v2 * 64 + (b3 - 0x80) ∧
                   v2 * 64 + (b3 - 0x80) < 0x110000) then
                (utf8D none bs).map (fun l => Char.ofNat (v2 * 64 + (b3 - 0x80)) :: l)
              else none
            else utf8D (some (1 - 1, 4, v2 * 64 + (b3 - 0x80))) bs
          else none) = _
        have hval : v2 * 64 + (b3 - 0x80) = c.toNat := by
          rw [hv2, hv1, hb0, hb1, hb2, hb3]; omega
        rw [if_pos (by omega), if_pos rfl,
          if_pos (⟨fun h => absurd h (by omega), fun h => absurd h (by omega),
            fun _ => by omega⟩ :
            ((4 : Nat) = 2 → 0x80 ≤ v2 * 64 + (b3 - 0x80)) ∧
            ((4 : Nat) = 3 → 0x800 ≤ v2 * 64 + (b3 - 0x80) ∧
              ¬(0xD800 ≤ v2 * 64 + (b3 - 0x80) ∧ v2 * 64 + (b3 - 0x80) < 0xE000)) ∧
            ((4 : Nat) = 4 → 0x10000 ≤ v2 * 64 + (b3 - 0x80) ∧
              v2 * 64 + (b3 - 0x80) < 0x110000))]
        rw [hval, Char.ofNat_toNat]

theorem utf8Decode_flat (cs : List Char) :
    utf8Decode (cs.flatMap utf8EncodeChar) = some cs := by
  induction cs with
  | nil => rfl
  | cons c t ih =>
    show utf8D none ((c :: t).flatMap utf8EncodeChar) = _
    rw [List.flatMap_cons, utf8D_encodeChar]
    show (utf8Decode (t.flatMap utf8EncodeChar)).map (fun l => c :: l) = _
    rw [ih]
    rfl

theorem pctD_triples (bs : List Nat) (h : ∀ b ∈ bs, b < 256) (rest : List Char) :
    pctD none (bs.flatMap pctTriple ++ rest) =
      (pctD none rest).map (fun l => bs ++ l) := by
  induction bs with
  | nil =>
    simp only [List.flatMap_nil, List.nil_append]
    cases pctD none rest <;> rfl
  | cons b t ih =>
    have hb : b < 256 := h b (List.mem_cons_self b t)
    have ht : ∀ x ∈ t, x < 256 := fun x hx => h x (List.mem_cons_of_mem b hx)
    rw [List.flatMap_cons, List.append_assoc]
    show pctD none ('%' :: hexDigitU (b / 16) :: hexDigitU (b % 16) ::
      (t.flatMap pctTriple ++ rest)) = _
    show (if ('%' : Char) = '%' then
        pctD (some none) (hexDigitU (b / 16) :: hexDigitU (b % 16) ::
          (t.flatMap pctTriple ++ rest))
      else (pctD none (hexDigitU (b / 16) :: hexDigitU (b % 16) ::
          (t.flatMap pctTriple ++ rest))).map
        (fun l => utf8EncodeChar '%' ++ l)) = _
    rw [if_pos rfl]
    show (match hexVal (hexDigitU (b / 16)) with
      | some a => pctD (some (some a)) (hexDigitU (b % 16) :: (t.flatMap pctTriple ++ rest))
      | none => none) = _
    rw [hexVal_hexDigitU (b / 16) (by omega)]
    show (match hexVal (hexDigitU (b % 16)) with
      | some x => (pctD none (t.flatMap pctTriple ++ rest)).map
          (fun l => (16 * (b / 16) + x) :: l)
      | none => none) = _
    rw [hexVal_hexDigitU (b % 16) (by omega)]
    show (pctD none (t.flatMap pctTriple ++ rest)).map (fun l => (16 * (b / 16) + b % 16) :: l) = _
    rw [ih ht, show 16 * (b / 16) + b % 16 = b from by omega]
    cases pctD none rest <;> rfl

theorem unreservedChar_ne_pct (c : Char) (h : unreservedChar c = true) : ¬ c = '%' := by
  intro he
  subst he
  exact absurd h (by decide)

theorem percentToBytes_enc (cs : List Char) :
    percentToBytes (cs.flatMap encChar) = some (cs.flatMap utf8EncodeChar) := by
  induction cs with
  | nil => rfl
  | cons c t ih =>
    rw [List.flatMap_cons, List.flatMap_cons]
    by_cases hu : unreservedChar c = true
    · rw [encChar, if_pos hu, List.cons_append, List.nil_append]
      show pctD none (c :: t.flatMap encChar) = _
      show (if c = '%' then pctD (some none) (t.flatMap encChar)
        else (pctD none (t.flatMap encChar)).map (fun l => utf8EncodeChar c ++ l)) = _
      rw [if_neg (unreservedChar_ne_pct c hu)]
      show (percentToBytes (t.flatMap encChar)).map (fun l => utf8EncodeChar c ++ l) = _
      rw [ih]
      rfl
    · rw [encChar, if_neg hu]
      show pctD none ((utf8EncodeChar c).flatMap pctTriple ++ t.flatMap encChar) = _
      rw [pctD_triples _ (utf8EncodeChar_lt c) _]
      show (percentToBytes (t.flatMap encChar)).map (fun l => utf8EncodeChar c ++ l) = _
      rw [ih]
      rfl

/-- Round-trip of the JavaScript percent codec: decoding an encoded string
recovers the string exactly. -/
theorem decodeURIComponent_encodeURIComponent (s : String) :
    decodeURIComponent (encodeURIComponent s) = some s := by
  show (match percentToBytes (s.data.flatMap encChar) with
    | none => none
    | some bs =>
      match utf8Decode bs with
      | none => none
      | some cs => some (String.mk cs)) = some s
  rw [percentToBytes_enc]
  show (match utf8Decode (s.data.flatMap utf8EncodeChar) with
    | none => none
    | some cs => some (String.mk cs)) = some s
  rw [utf8Decode_flat]

/-! ## Header list lemmas -/

theorem isPrefL_append (x y : List Char) : isPrefL x (x ++ y) = true := by
  induction x with
  | nil => rfl
  | cons a t ih =>
    show (if a = a then isPrefL t (t ++ y) else false) = true
    rw [if_pos rfl]
    exact ih

theorem hGet_hSet_self (h : List (String × String)) (n v : String) :
    hGet (hSet h n v) n = some v := by
  induction h with
  | nil =>
    show (if n = n then some v else none) = some v
    rw [if_pos rfl]
  | cons e t ih =>
    obtain ⟨k, w⟩ := e
    show hGet (if k = n then (k, v) :: t else (k, w) :: hSet t n v) n = some v
    by_cases hk : k = n
    · rw [if_pos hk]
      show (if k = n then some v else hGet t n) = some v
      rw [if_pos hk]
    · rw [if_neg hk]
      show (if k = n then some w else hGet (hSet t n v) n) = some v
      rw [if_neg hk]
      exact ih

theorem hGet_hSet_ne (h : List (String × String)) (k n v : String) (hne : ¬ n = k) :
    hGet (hSet h k v) n = hGet h n := by
  induction h with
  | nil =>
    show (if k = n then some v else none) = none
    rw [if_neg (fun he => hne he.symm)]
  | cons e t ih =>
    obtain ⟨a, w⟩ := e
    show hGet (if a = k then (a, v) :: t else (a, w) :: hSet t k v) n = _
    by_cases ha : a = k
    · rw [if_pos ha]
      show (if a = n then some v else hGet t n) = (if a = n then some w else hGet t n)
      rw [if_neg (ha ▸ fun he => hne he.symm), if_neg (ha ▸ fun he => hne he.symm)]
    · rw [if_neg ha]
      show (if a = n then some w else hGet (hSet t k v) n) =
        (if a = n then some w else hGet t n)
      by_cases han : a = n
      · rw [if_pos han, if_pos han]
      · rw [if_neg han, if_neg han]
        exact ih

theorem hGet_hRemove_self (h : List (String × String)) (n : String) :
    hGet (hRemove h n) n = none := by
  induction h with
  | nil => rfl
  | cons e t ih =>
    obtain ⟨k, w⟩ := e
    show hGet (List.filter _ ((k, w) :: t)) n = none
    rw [List.filter_cons]
    by_cases hk : k = n
    · rw [if_neg (by simp [hk])]
      exact ih
    · rw [if_pos (by simp [hk])]
      show (if k = n then some w else hGet (hRemove t n) n) = none
      rw [if_neg hk]
      exact ih

theorem hGet_hRemove_ne (h : List (String × String)) (k n : String) (hne : ¬ n = k) :
    hGet (hRemove h k) n = hGet h n := by
  induction h with
  | nil => rfl
  | cons e t ih =>
    obtain ⟨a, w⟩ := e
    show hGet (List.filter _ ((a, w) :: t)) n = _
    rw [List.filter_cons]
    by_cases ha : a = k
    · rw [if_neg (by simp [ha])]
      show hGet (hRemove t k) n = (if a = n then some w else hGet t n)
      rw [if_neg (ha ▸ fun he => hne he.symm), ih]
    · rw [if_pos (by simp [ha])]
      show (if a = n then some w else hGet (hRemove t k) n) =
        (if a = n then some w else hGet t n)
      by_cases han : a = n
      · rw [if_pos han, if_pos han]
      · rw [if_neg han, if_neg han]
        exact ih

theorem hGet_filter_keep (p : String × String → Bool) (h : List (String × String))
    (n : String) (hp : ∀ v, p (n, v) = true) :
    hGet (h.filter p) n = hGet h n := by
  induction h with
  | nil => rfl
  | cons e t ih =>
    obtain ⟨k, w⟩ := e
    rw [List.filter_cons]
    by_cases hk : k = n
    · subst hk
      rw [if_pos (by simp [hp w])]
      show (if k = k then some w else hGet (t.filter p) k) = (if k = k then some w else hGet t k)
      rw [if_pos rfl, if_pos rfl]
    · by_cases hpk : p (k, w) = true
      · rw [if_pos (by simp [hpk])]
        show (if k = n then some w else hGet (t.filter p) n) =
          (if k = n then some w else hGet t n)
        rw [if_neg hk, if_neg hk]
        exact ih
      · rw [if_neg (by simp [hpk])]
        show hGet (t.filter p) n = (if k = n then some w else hGet t n)
        rw [if_neg hk]
        exact ih

theorem hGet_filter_drop (p : String × String → Bool) (h : List (String × String))
    (n : String) (hp : ∀ v, p (n, v) = false) :
    hGet (h.filter p) n = none := by
  induction h with
  | nil => rfl
  | cons e t ih =>
    obtain ⟨k, w⟩ := e
    rw [List.filter_cons]
    by_cases hk : k = n
    · subst hk
      rw [if_neg (by simp [hp w])]
      exact ih
    · by_cases hpk : p (k, w) = true
      · rw [if_pos (by simp [hpk])]
        show (if k = n then some w else hGet (t.filter p) n) = none
        rw [if_neg hk]
        exact ih
      · rw [if_neg (by simp [hpk])]
        exact ih

theorem hKeys_cons (k w : String) (t : List (String × String)) :
    hKeys ((k, w) :: t) = k :: hKeys t := rfl

theorem hKeys_hSet_mem (h : List (String × String)) (n v : String) (hm : n ∈ hKeys h) :
    hKeys (hSet h n v) = hKeys h := by
  induction h with
  | nil => exact absurd hm (by simp [hKeys])
  | cons e t ih =>
    obtain ⟨k, w⟩ := e
    show hKeys (if k = n then (k, v) :: t else (k, w) :: hSet t n v) = _
    by_cases hk : k = n
    · rw [if_pos hk, hKeys_cons, hKeys_cons]
    · rw [if_neg hk, hKeys_cons, hKeys_cons]
      rw [hKeys_cons] at hm
      rcases List.mem_cons.mp hm with h1 | h1
      · exact absurd h1.symm hk
      · rw [ih h1]

theorem hKeys_hSet_not_mem (h : List (String × String)) (n v : String)
    (hm : ¬ n ∈ hKeys h) : hKeys (hSet h n v) = hKeys h ++ [n] := by
  induction h with
  | nil => rfl
  | cons e t ih =>
    obtain ⟨k, w⟩ := e
    show hKeys (if k = n then (k, v) :: t else (k, w) :: hSet t n v) = _
    rw [hKeys_cons] at hm
    have hk : ¬ k = n := fun he => hm (List.mem_cons.mpr (Or.inl he.symm))
    have hmt : ¬ n ∈ hKeys t := fun he => hm (List.mem_cons.mpr (Or.inr he))
    rw [if_neg hk, hKeys_cons, hKeys_cons, ih hmt]
    rfl

theorem nodup_hSet (h : List (String × String)) (n v : String)
    (hn : (hKeys h).Nodup) : (hKeys (hSet h n v)).Nodup := by
  by_cases hm : n ∈ hKeys h
  · rw [hKeys_hSet_mem h n v hm]
    exact hn
  · rw [hKeys_hSet_not_mem h n v hm]
    rw [List.nodup_append]
    exact ⟨hn, List.nodup_singleton n, by
      intro x hx hy
      rw [List.mem_singleton] at hy
      exact hm (hy ▸ hx)⟩

theorem nodup_foldl_hSet (l : List (String × String)) :
    ∀ acc : List (String × String), (hKeys acc).Nodup →
    (hKeys (l.foldl (fun acc e => hSet acc (lowerS e.1) e.2) acc)).Nodup := by
  induction l with
  | nil => intro acc h; exact h
  | cons e t ih =>
    intro acc h
    rw [List.foldl_cons]
    exact ih _ (nodup_hSet _ _ _ h)

theorem nodup_mkHeaders (l : List (String × String)) : (hKeys (mkHeaders l)).Nodup :=
  nodup_foldl_hSet l [] (by simp [hKeys])

theorem nodup_corsSet (h : List (String × String)) (hn : (hKeys h).Nodup) :
    (hKeys (corsSet h)).Nodup :=
  nodup_hSet _ _ _ (nodup_hSet _ _ _ (nodup_hSet _ _ _ hn))

theorem hSet_not_mem_append (h : List (String × String)) (n v : String)
    (hm : ¬ n ∈ hKeys h) : hSet h n v = h ++ [(n, v)] := by
  induction h with
  | nil => rfl
  | cons e t ih =>
    obtain ⟨k, w⟩ := e
    rw [hKeys_cons] at hm
    have hk : ¬ k = n := fun he => hm (List.mem_cons.mpr (Or.inl he.symm))
    have hmt : ¬ n ∈ hKeys t := fun he => hm (List.mem_cons.mpr (Or.inr he))
    show (if k = n then (k, v) :: t else (k, w) :: hSet t n v) = _
    rw [if_neg hk, ih hmt]
    rfl

theorem hKeys_append (a b : List (String × String)) :
    hKeys (a ++ b) = hKeys a ++ hKeys b := List.map_append _ a b

theorem copyFold_filter (ct : Bool) (l : List (String × String)) :
    ∀ acc : List (String × String), (hKeys (acc ++ l)).Nodup →
    l.foldl (fun res e => if copySkip ct e.1 then res else hSet res e.1 e.2) acc =
      acc ++ l.filter (fun e => !(copySkip ct e.1)) := by
  induction l with
  | nil => intro acc _; simp
  | cons e t ih =>
    intro acc hnd
    have hsub : (hKeys (acc ++ t)).Nodup := by
      have hs : (acc ++ t).Sublist (acc ++ e :: t) :=
        List.Sublist.append_left (List.sublist_cons_self e t) acc
      exact ((hs.map Prod.fst).nodup hnd)
    have hnotacc : ¬ e.1 ∈ hKeys acc := by
      intro hmem
      obtain ⟨k, w⟩ := e
      have hnd2 : (hKeys acc ++ k :: hKeys t).Nodup := by
        rw [hKeys_append, hKeys_cons] at hnd
        exact hnd
      rw [List.nodup_append] at hnd2
      exact hnd2.2.2 hmem (List.mem_cons.mpr (Or.inl rfl))
    rw [List.foldl_cons, List.filter_cons]
    by_cases hs : copySkip ct e.1 = true
    · rw [if_pos hs, if_neg (by simp [hs])]
      exact ih acc hsub
    · have hs' : copySkip ct e.1 = false := by
        cases hq : copySkip ct e.1
        · rfl
        · exact absurd hq hs
      rw [if_neg hs, if_pos (by simp [hs'])]
      rw [hSet_not_mem_append acc e.1 e.2 hnotacc]
      have hnd2 : (hKeys ((acc ++ [(e.1, e.2)]) ++ t)).Nodup := by
        have he : (acc ++ [(e.1, e.2)]) ++ t = acc ++ e :: t := by simp
        rw [he]
        exact hnd
      rw [ih (acc ++ [(e.1, e.2)]) hnd2]
      simp

theorem copyHeaders_eq_filter (h : List (String × String)) (hnd : (hKeys h).Nodup) :
    copyHeaders h =
      h.filter (fun e => !(copySkip (containsS ((hGet h ctK).getD ("")) ("text")) e.1)) := by
  unfold copyHeaders
  exact copyFold_filter _ h [] (by simpa using hnd)

/-! ## Handler-level lemmas -/

theorem headers_handleUpstream (ph : String → HTree) (pr : HTree → String) (ho : String)
    (target : HttpURL) (up : UpResp) (hr : redirB up = false) :
    (handleUpstream ph pr ho target up).headers =
      (if htmlB up = true then afterTextMod (copyHeaders (corsSet (mkHeaders up.headers)))
       else if isCodeB target up = true then
         afterTextMod (copyHeaders (corsSet (mkHeaders up.headers)))
       else copyHeaders (corsSet (mkHeaders up.headers))) := by
  unfold handleUpstream
  rw [hr, if_neg (by simp)]
  by_cases hh : htmlB up = true
  · rw [if_pos hh, if_pos hh]
    rfl
  · rw [if_neg hh, if_neg hh]
    by_cases hc : isCodeB target up = true
    · rw [if_pos hc, if_pos hc]
      rfl
    · rw [if_neg hc, if_neg hc]
      rfl

theorem hGet_corsSet_ne (h : List (String × String)) (name : String)
    (h3 : ¬ name = acaoK) (h4 : ¬ name = acahK) (h5 : ¬ name = acehK) :
    hGet (corsSet h) name = hGet h name := by
  unfold corsSet
  rw [hGet_hSet_ne _ _ _ _ h5, hGet_hSet_ne _ _ _ _ h4, hGet_hSet_ne _ _ _ _ h3]

theorem hGet_copy_corsSet_ne (X : List (String × String)) (name : String)
    (hnd : (hKeys X).Nodup)
    (h1 : ¬ name = clK) (h2 : ¬ name = ceK) (h3 : ¬ name = acaoK)
    (h4 : ¬ name = acahK) (h5 : ¬ name = acehK) :
    hGet (copyHeaders (corsSet X)) name = hGet X name := by
  rw [copyHeaders_eq_filter _ (nodup_corsSet _ hnd)]
  rw [hGet_filter_keep]
  · exact hGet_corsSet_ne X name h3 h4 h5
  · intro v
    simp [copySkip, h1, h2]

theorem copySkip_false (ct : Bool) (n : String) (h1 : ¬ n = ceK) (h2 : ¬ n = clK) :
    copySkip ct n = false := by
  unfold copySkip
  rw [decide_eq_false h1, decide_eq_false h2]
  rfl

theorem hGet_copy_corsSet_cors (X : List (String × String)) (hnd : (hKeys X).Nodup) :
    hGet (copyHeaders (corsSet X)) acaoK = some ("*") ∧
    hGet (copyHeaders (corsSet X)) acahK = some ("*") ∧
    hGet (copyHeaders (corsSet X)) acehK = some ("*") := by
  refine ⟨?_, ?_, ?_⟩
  · rw [copyHeaders_eq_filter _ (nodup_corsSet _ hnd)]
    have hp : ∀ v, (fun e =>
        !(copySkip (containsS ((hGet (corsSet X) ctK).getD ("")) ("text")) e.1))
        ((acaoK, v) : String × String) = true := by
      intro v
      show !(copySkip (containsS ((hGet (corsSet X) ctK).getD ("")) ("text")) acaoK) = true
      rw [copySkip_false _ _ (by decide) (by decide)]
      rfl
    rw [hGet_filter_keep _ _ _ hp]
    unfold corsSet
    rw [hGet_hSet_ne _ _ _ _ (by decide), hGet_hSet_ne _ _ _ _ (by decide), hGet_hSet_self]
  · rw [copyHeaders_eq_filter _ (nodup_corsSet _ hnd)]
    have hp : ∀ v, (fun e =>
        !(copySkip (containsS ((hGet (corsSet X) ctK).getD ("")) ("text")) e.1))
        ((acahK, v) : String × String) = true := by
      intro v
      show !(copySkip (containsS ((hGet (corsSet X) ctK).getD ("")) ("text")) acahK) = true
      rw [copySkip_false _ _ (by decide) (by decide)]
      rfl
    rw [hGet_filter_keep _ _ _ hp]
    unfold corsSet
    rw [hGet_hSet_ne _ _ _ _ (by decide), hGet_hSet_self]
  · rw [copyHeaders_eq_filter _ (nodup_corsSet _ hnd)]
    have hp : ∀ v, (fun e =>
        !(copySkip (containsS ((hGet (corsSet X) ctK).getD ("")) ("text")) e.1))
        ((acehK, v) : String × String) = true := by
      intro v
      show !(copySkip (containsS ((hGet (corsSet X) ctK).getD ("")) ("text")) acehK) = true
      rw [copySkip_false _ _ (by decide) (by decide)]
      rfl
    rw [hGet_filter_keep _ _ _ hp]
    unfold corsSet
    rw [hGet_hSet_self]

theorem hGet_copy_corsSet_drop (X : List (String × String)) (name : String)
    (hnd : (hKeys X).Nodup) (hname : name = clK ∨ name = ceK)
    (hct : containsS ((hGet X ctK).getD ("")) ("text") = true) :
    hGet (copyHeaders (corsSet X)) name = none := by
  rw [copyHeaders_eq_filter _ (nodup_corsSet _ hnd)]
  apply hGet_filter_drop
  intro v
  have hcors : hGet (corsSet X) ctK = hGet X ctK :=
    hGet_corsSet_ne X ctK (by decide) (by decide) (by decide)
  rw [hcors, hct]
  rcases hname with hn | hn <;> subst hn <;> simp [copySkip]

theorem hGet_afterTextMod_ne (res0 : List (String × String)) (name : String)
    (h1 : ¬ name = clK) (h2 : ¬ name = ceK) :
    hGet (afterTextMod res0) name = hGet res0 name := by
  unfold afterTextMod
  split_ifs with h
  · rw [hGet_hRemove_ne _ _ _ h2, hGet_hRemove_ne _ _ _ h1]
  · rw [hGet_hRemove_ne _ _ _ h1]

theorem hGet_afterTextMod_cl (res0 : List (String × String)) :
    hGet (afterTextMod res0) clK = none := by
  unfold afterTextMod
  split_ifs with h
  · rw [hGet_hRemove_ne _ _ _ (by decide : ¬ clK = ceK)]
    exact hGet_hRemove_self _ _
  · exact hGet_hRemove_self _ _

theorem hGet_afterTextMod_ce (res0 : List (String × String)) :
    hGet (afterTextMod res0) ceK = none := by
  unfold afterTextMod
  split_ifs with h
  · exact hGet_hRemove_self _ _
  · rcases hq : hGet (hRemove res0 clK) ceK with _ | v
    · rfl
    · rw [hq] at h
      simp at h

theorem handleUpstream_redirect_eq (ph : String → HTree) (pr : HTree → String)
    (ho : String) (target : HttpURL) (up : UpResp) (loc : String) (abs : URLv)
    (h1 : 300 ≤ up.status) (h2 : up.status < 400)
    (h3 : hGet (mkHeaders up.headers) locK = some loc)
    (h4 : resolve loc target = some abs) :
    handleUpstream ph pr ho target up =
      ⟨up.status, [(locK, proxied ho abs), (acaoK, ("*")), (acahK, ("*"))], ("")⟩ := by
  have hb : redirB up = true := by
    unfold redirB
    rw [h3]
    simp [h1, h2]
  unfold handleUpstream
  rw [hb, if_pos rfl]
  unfold redirectPart
  rw [h3]
  show (match resolve loc target with
    | some abs =>
      ({ status := up.status, headers := [(locK, proxied ho abs), (acaoK, ("*")), (acahK, ("*"))],
         body := ("") } : ProxyResp)
    | none =>
      ({ status := 500, headers := [(acaoK, ("*")), (acahK, ("*"))],
         body := ("Proxy server error") } : ProxyResp)) = _
  rw [h4]

/-! ## Claim C1: codec round-trip through the handler's decode phase -/

theorem encChar_ne_nil (c : Char) : ¬ encChar c = [] := by
  unfold encChar
  split_ifs with h
  · simp
  · unfold utf8EncodeChar
    split_ifs <;> simp [pctTriple]

theorem encodeURIComponent_ne_empty (s : String) (h : ¬ s = ("")) :
    ¬ encodeURIComponent s = ("") := by
  obtain ⟨cs⟩ := s
  cases cs with
  | nil => exact absurd rfl h
  | cons c t =>
    intro he
    have hd := congrArg String.data he
    rw [show (encodeURIComponent (String.mk (c :: t))).data =
      encChar c ++ t.flatMap encChar from by
        show ((c :: t).flatMap encChar) = _
        rw [List.flatMap_cons]] at hd
    rcases List.append_eq_nil.mp hd with ⟨h1, _⟩
    exact encChar_ne_nil c h1

/-- C1: for every valid absolute URL `u` with http/https scheme, decoding
the proxy path produced by encoding `u` (percent-encoding the full URL and
appending it to `/cors/`) yields the target `u` again: the validated
target string is exactly `u`, and the resulting TargetURL is the URL that
`u` denotes. -/
theorem c1_decode_encode_roundtrip (u : String) (url : HttpURL)
    (h1 : testHttpScheme u = true) (h2 : isValidUrl u = true)
    (h3 : parseURL u = some (.http url)) :
    decodeTargetStr (encodeURIComponent u) = .ok u ∧
    routeDecodeStr (pfx ++ encodeURIComponent u) = .ok u ∧
    routePhase (encodeURIComponent u) = .ok url := by
  have hu : ¬ u = ("") := by
    intro he
    rw [he] at h1
    exact absurd h1 (by decide)
  have hne := encodeURIComponent_ne_empty u hu
  have hmain : decodeTargetStr (encodeURIComponent u) = .ok u := by
    unfold decodeTargetStr
    rw [if_neg hne, decodeURIComponent_encodeURIComponent]
    simp [h1, h2]
  refine ⟨hmain, ?_, ?_⟩
  · unfold routeDecodeStr
    rw [String.data_append, List.drop_left]
    show decodeTargetStr (String.mk (encodeURIComponent u).data) = _
    exact hmain
  · unfold routePhase
    rw [hmain]
    show (match parseURL u with
      | some (.http u') => (Except.ok u' : Except ProxyResp HttpURL)
      | _ => Except.error ⟨400, [], ("Invalid target URL or unsupported protocol.")⟩) = _
    rw [h3]

/-- Witness for C1 at the URL `https://example.com/`. -/
theorem c1_witness :
    (testHttpScheme ("https://example.com/") = true ∧
     isValidUrl ("https://example.com/") = true) ∧
    (decodeTargetStr (encodeURIComponent ("https://example.com/")) =
       .ok ("https://example.com/") ∧
     routeDecodeStr (pfx ++ encodeURIComponent ("https://example.com/")) =
       .ok ("https://example.com/") ∧
     routePhase (encodeURIComponent ("https://example.com/")) =
       .ok ⟨true, none, ("example.com"), none, [("")], none, none⟩) :=
  ⟨⟨by decide, by decide⟩,
   c1_decode_encode_roundtrip ("https://example.com/")
     ⟨true, none, ("example.com"), none, [("")], none, none⟩
     (by decide) (by decide) (by decide)⟩

/-! ## Claim C2: redirect rewriting -/

/-- C2: for every upstream response with status in [300,400) and a
location header whose value resolves against the TargetURL, the proxy
answers with the original status, an empty body, and a location header
equal to `proxyOrigin + prefix + percent-encode(resolved absolute URL)`
(plus the two CORS headers this path sets). -/
theorem c2_redirect_rewrite (ph : String → HTree) (pr : HTree → String)
    (ho : String) (target : HttpURL) (up : UpResp) (loc : String) (abs : URLv)
    (h1 : 300 ≤ up.status) (h2 : up.status < 400)
    (h3 : hGet (mkHeaders up.headers) locK = some loc)
    (h4 : resolve loc target = some abs) :
    handleUpstream ph pr ho target up =
      ⟨up.status, [(locK, ho ++ pfx ++ encodeURIComponent (urlToString abs)),
        (acaoK, ("*")), (acahK, ("*"))], ("")⟩ :=
  handleUpstream_redirect_eq ph pr ho target up loc abs h1 h2 h3 h4

/-- Witness for C2: upstream 301 with location `/new` against base
`https://example.com/old` yields 301 with the location
`{proxyOrigin}/cors/` followed by `encodeURIComponent("https://example.com/new")`. -/
theorem c2_witness :
    (300 ≤ upRedir.status ∧ upRedir.status < 400 ∧
     hGet (mkHeaders upRedir.headers) locK = some ("/new") ∧
     resolve ("/new") tgtD =
       some (.http ⟨true, none, ("example.com"), none, [("new")], none, none⟩)) ∧
    handleUpstream phD prD hoD tgtD upRedir =
      ⟨301, [(locK, ("http://proxy.example/cors/https%3A%2F%2Fexample.com%2Fnew")),
        (acaoK, ("*")), (acahK, ("*"))], ("")⟩ :=
  ⟨⟨by decide, by decide, by decide, by decide⟩,
   (c2_redirect_rewrite phD prD hoD tgtD upRedir ("/new")
     (.http ⟨true, none, ("example.com"), none, [("new")], none, none⟩)
     (by decide) (by decide) (by decide) (by decide)).trans (by decide)⟩

/-! ## Claim C4: classifier order -/

/-- C4: the handler implements exactly the first-match strategy selection
redirect, markup, source-text, passthrough: the produced response is the
selected strategy's response, each strategy is selected exactly under its
first-match condition, and in particular a 3xx response with a location
header is handled by the redirect rewriter regardless of its
content-type. -/
theorem c4_classifier (ph : String → HTree) (pr : HTree → String) (ho : String)
    (target : HttpURL) (up : UpResp) :
    handleUpstream ph pr ho target up =
      handleByStrategy ph pr ho target up (classify target up) ∧
    (classify target up = .redirect ↔ redirB up = true) ∧
    (classify target up = .markup ↔ (redirB up = false ∧ htmlB up = true)) ∧
    (classify target up = .sourceText ↔
      (redirB up = false ∧ htmlB up = false ∧ isCodeB target up = true)) ∧
    (classify target up = .passthrough ↔
      (redirB up = false ∧ htmlB up = false ∧ isCodeB target up = false)) ∧
    (redirB up = true → classify target up = .redirect) := by
  unfold handleUpstream handleByStrategy classify
  cases hr : redirB up <;> cases hh : htmlB up <;> cases hc : isCodeB target up <;> simp

/-- Witness for C4: a 301 with location and a text/html content-type is
classified redirect, not markup. -/
theorem c4_witness :
    (redirB upRedirHtml = true ∧ htmlB upRedirHtml = true) ∧
    classify tgtD upRedirHtml = .redirect :=
  ⟨⟨by decide, by decide⟩,
   (c4_classifier phD prD hoD tgtD upRedirHtml).2.2.2.2.2 (by decide)⟩

/-! ## Claim C5: decode rejections -/

/-- C5 counterexample: `decode("ftp://x")` does not fail with InvalidURL;
the scheme-defaulting step turns it into the valid target
`http://ftp//x` (host `ftp`, path `//x`), so the handler proceeds to the
upstream call instead of answering 400. -/
theorem c5_counterexample :
    routePhase ("ftp://x") =
      .ok ⟨false, none, ("ftp"), none, [(""), ("x")], none, none⟩ := by decide

/-- C5 (amended): `decode("")` and `decode("not a url")` fail with a 400
response and no upstream call is attempted (the handler's answer does not
depend on any upstream response); `decode("ftp://x")`, however, is coerced
to `http://ftp//x`, validated, and forwarded upstream. -/
theorem c5_decode_rejections :
    routePhase ("") = .error ⟨400, [], ("Target URL is missing after /cors/")⟩ ∧
    routePhase ("not a url") =
      .error ⟨400, [], ("Invalid target URL or unsupported protocol.")⟩ ∧
    (∀ ph pr ho up, fullHandler ph pr ho ("") up =
      ⟨400, [], ("Target URL is missing after /cors/")⟩) ∧
    (∀ ph pr ho up, fullHandler ph pr ho ("not a url") up =
      ⟨400, [], ("Invalid target URL or unsupported protocol.")⟩) ∧
    decodeTargetStr ("ftp://x") = .ok ("http://ftp://x") ∧
    (∀ ph pr ho up, fullHandler ph pr ho ("ftp://x") up =
      handleUpstream ph pr ho ⟨false, none, ("ftp"), none, [(""), ("x")], none, none⟩ up) := by
  refine ⟨by decide, by decide, ?_, ?_, by decide, ?_⟩
  · intro ph pr ho up
    unfold fullHandler
    rw [(by decide :
      routePhase ("") = .error ⟨400, [], ("Target URL is missing after /cors/")⟩)]
  · intro ph pr ho up
    unfold fullHandler
    rw [(by decide : routePhase ("not a url") =
      .error ⟨400, [], ("Invalid target URL or unsupported protocol.")⟩)]
  · intro ph pr ho up
    unfold fullHandler
    rw [(by decide : routePhase ("ftp://x") =
      .ok ⟨false, none, ("ftp"), none, [(""), ("x")], none, none⟩)]

/-! ## Claim C6: outbound header copying -/

/-- C6 counterexample: on a binary passthrough response the upstream
content-length survives into the outbound header set, and an upstream
`host` header is copied verbatim, contradicting the claim that
content-length is always dropped and host never appears. -/
theorem c6_counterexample :
    hGet (handleUpstream phD prD hoD tgtD upBin).headers clK = some ("5") ∧
    hGet (handleUpstream phD prD hoD tgtD upBin).headers ("host") = some ("evil") := by
  exact ⟨by decide, by decide⟩

/-- C6 (amended): for every non-redirect upstream response the outbound
set copies every upstream header verbatim except that content-length and
content-encoding are omitted whenever the upstream content-type contains
`text`, and are additionally removed whenever the markup or source-text
strategy rewrote the body; `host` is not stripped on this outbound leg
(only the inbound request leg removes it). -/
theorem c6_header_copy (ph : String → HTree) (pr : HTree → String) (ho : String)
    (target : HttpURL) (up : UpResp) :
    (∀ name, ¬ name = clK → ¬ name = ceK → ¬ name = acaoK → ¬ name = acahK →
      ¬ name = acehK → redirB up = false →
      hGet (handleUpstream ph pr ho target up).headers name =
        hGet (mkHeaders up.headers) name) ∧
    (redirB up = false → containsS (ctOf up) ("text") = true →
      hGet (handleUpstream ph pr ho target up).headers clK = none ∧
      hGet (handleUpstream ph pr ho target up).headers ceK = none) ∧
    (redirB up = false → (htmlB up = true ∨ isCodeB target up = true) →
      hGet (handleUpstream ph pr ho target up).headers clK = none ∧
      hGet (handleUpstream ph pr ho target up).headers ceK = none) := by
  have hnd := nodup_mkHeaders up.headers
  refine ⟨?_, ?_, ?_⟩
  · intro name h1 h2 h3 h4 h5 hr
    rw [headers_handleUpstream ph pr ho target up hr]
    split_ifs with hh hc
    · rw [hGet_afterTextMod_ne _ _ h1 h2]
      exact hGet_copy_corsSet_ne _ _ hnd h1 h2 h3 h4 h5
    · rw [hGet_afterTextMod_ne _ _ h1 h2]
      exact hGet_copy_corsSet_ne _ _ hnd h1 h2 h3 h4 h5
    · exact hGet_copy_corsSet_ne _ _ hnd h1 h2 h3 h4 h5
  · intro hr hct
    rw [headers_handleUpstream ph pr ho target up hr]
    split_ifs with hh hc
    · exact ⟨hGet_afterTextMod_cl _, hGet_afterTextMod_ce _⟩
    · exact ⟨hGet_afterTextMod_cl _, hGet_afterTextMod_ce _⟩
    · exact ⟨hGet_copy_corsSet_drop _ _ hnd (Or.inl rfl) hct,
        hGet_copy_corsSet_drop _ _ hnd (Or.inr rfl) hct⟩
  · intro hr hbr
    rw [headers_handleUpstream ph pr ho target up hr]
    split_ifs with hh hc
    · exact ⟨hGet_afterTextMod_cl _, hGet_afterTextMod_ce _⟩
    · exact ⟨hGet_afterTextMod_cl _, hGet_afterTextMod_ce _⟩
    · rcases hbr with hb | hb
      · exact absurd hb hh
      · exact absurd hb hc

/-- Witness for C6: host is copied verbatim on the binary passthrough, and
the source-text branch sheds content-length and content-encoding. -/
theorem c6_witness :
    (¬ ("host") = clK ∧ redirB upBin = false ∧ isCodeB tgtJs upJs = true) ∧
    hGet (handleUpstream phD prD hoD tgtD upBin).headers ("host") =
      hGet (mkHeaders upBin.headers) ("host") ∧
    (hGet (handleUpstream phD prD hoD tgtJs upJs).headers clK = none ∧
     hGet (handleUpstream phD prD hoD tgtJs upJs).headers ceK = none) :=
  ⟨⟨by decide, by decide, by decide⟩,
   (c6_header_copy phD prD hoD tgtD upBin).1 ("host") (by decide) (by decide)
     (by decide) (by decide) (by decide) (by decide),
   (c6_header_copy phD prD hoD tgtJs upJs).2.2 (by decide) (Or.inr (by decide))⟩

/-! ## Claim C7: CORS headers on every path -/

/-- C7 counterexample: the redirect short-circuit response does not carry
`Access-Control-Expose-Headers`, contradicting the claim that every
response carries all three CORS headers. -/
theorem c7_counterexample :
    hGet (handleUpstream phD prD hoD tgtD upRedir).headers acehK = none := by decide

/-- C7 (amended): every non-redirect response produced from an upstream
response carries all three `*` CORS headers; the redirect short-circuit
carries `Access-Control-Allow-Origin` and `Access-Control-Allow-Headers`
but not `Access-Control-Expose-Headers`. -/
theorem c7_cors (ph : String → HTree) (pr : HTree → String) (ho : String)
    (target : HttpURL) (up : UpResp) :
    (redirB up = false →
      hGet (handleUpstream ph pr ho target up).headers acaoK = some ("*") ∧
      hGet (handleUpstream ph pr ho target up).headers acahK = some ("*") ∧
      hGet (handleUpstream ph pr ho target up).headers acehK = some ("*")) ∧
    (∀ loc abs, hGet (mkHeaders up.headers) locK = some loc →
      resolve loc target = some abs → 300 ≤ up.status → up.status < 400 →
      hGet (handleUpstream ph pr ho target up).headers acaoK = some ("*") ∧
      hGet (handleUpstream ph pr ho target up).headers acahK = some ("*") ∧
      hGet (handleUpstream ph pr ho target up).headers acehK = none) := by
  have hnd := nodup_mkHeaders up.headers
  have hcors := hGet_copy_corsSet_cors (mkHeaders up.headers) hnd
  constructor
  · intro hr
    rw [headers_handleUpstream ph pr ho target up hr]
    split_ifs with hh hc
    · exact ⟨(hGet_afterTextMod_ne _ _ (by decide) (by decide)).trans hcors.1,
        (hGet_afterTextMod_ne _ _ (by decide) (by decide)).trans hcors.2.1,
        (hGet_afterTextMod_ne _ _ (by decide) (by decide)).trans hcors.2.2⟩
    · exact ⟨(hGet_afterTextMod_ne _ _ (by decide) (by decide)).trans hcors.1,
        (hGet_afterTextMod_ne _ _ (by decide) (by decide)).trans hcors.2.1,
        (hGet_afterTextMod_ne _ _ (by decide) (by decide)).trans hcors.2.2⟩
    · exact hcors
  · intro loc abs h3 h4 h1 h2
    rw [handleUpstream_redirect_eq ph pr ho target up loc abs h1 h2 h3 h4]
    refine ⟨?_, ?_, ?_⟩ <;> simp [hGet, locK, acaoK, acahK, acehK]

/-- Witness for C7: the binary passthrough response carries all three CORS
headers, and the concrete redirect carries the first two. -/
theorem c7_witness :
    (redirB upBin = false ∧ 300 ≤ upRedir.status) ∧
    (hGet (handleUpstream phD prD hoD tgtD upBin).headers acaoK = some ("*") ∧
     hGet (handleUpstream phD prD hoD tgtD upBin).headers acahK = some ("*") ∧
     hGet (handleUpstream phD prD hoD tgtD upBin).headers acehK = some ("*")) ∧
    hGet (handleUpstream phD prD hoD tgtD upRedir).headers acaoK = some ("*") :=
  ⟨⟨by decide, by decide⟩,
   (c7_cors phD prD hoD tgtD upBin).1 (by decide),
   ((c7_cors phD prD hoD tgtD upRedir).2 ("/new")
     (.http ⟨true, none, ("example.com"), none, [("new")], none, none⟩)
     (by decide) (by decide) (by decide) (by decide)).1⟩

/-! ## Markup rewriter lemmas -/

theorem hGet_rewriteAttrVal_ne (ho : String) (target : HttpURL)
    (attrs : List (String × String)) (attr n : String) (hne : ¬ n = attr) :
    hGet (rewriteAttrVal ho target attrs attr) n = hGet attrs n := by
  unfold rewriteAttrVal
  cases hv : hGet attrs attr with
  | none => rfl
  | some v =>
    show hGet (if v = ("") then attrs
      else match resolve v target with
        | some abs => hSet attrs attr (proxied ho abs)
        | none => attrs) n = hGet attrs n
    split_ifs with he
    · rfl
    · cases hr : resolve v target with
      | none => rfl
      | some abs => exact hGet_hSet_ne _ _ _ _ hne

theorem rewriteAttrVal_empty (ho : String) (target : HttpURL)
    (attrs : List (String × String)) (attr : String)
    (hv : hGet attrs attr = some ("")) :
    rewriteAttrVal ho target attrs attr = attrs := by
  unfold rewriteAttrVal
  rw [hv]
  show (if ("" : String) = ("") then attrs
    else match resolve ("") target with
      | some abs => hSet attrs attr (proxied ho abs)
      | none => attrs) = attrs
  rw [if_pos rfl]

theorem hGet_rewriteAttrVal_resolved (ho : String) (target : HttpURL)
    (attrs : List (String × String)) (attr v : String) (abs : URLv)
    (hv : hGet attrs attr = some v) (hne : ¬ v = (""))
    (hr : resolve v target = some abs) :
    hGet (rewriteAttrVal ho target attrs attr) attr = some (proxied ho abs) := by
  unfold rewriteAttrVal
  rw [hv]
  show hGet (if v = ("") then attrs
    else match resolve v target with
      | some abs => hSet attrs attr (proxied ho abs)
      | none => attrs) attr = some (proxied ho abs)
  rw [if_neg hne, hr]
  exact hGet_hSet_self _ _ _

theorem hGet_rewriteAttrVal_failed (ho : String) (target : HttpURL)
    (attrs : List (String × String)) (attr v : String)
    (hv : hGet attrs attr = some v) (hne : ¬ v = (""))
    (hr : resolve v target = none) :
    hGet (rewriteAttrVal ho target attrs attr) attr = some v := by
  unfold rewriteAttrVal
  rw [hv]
  show hGet (if v = ("") then attrs
    else match resolve v target with
      | some abs => hSet attrs attr (proxied ho abs)
      | none => attrs) attr = some v
  rw [if_neg hne, hr]
  exact hv

theorem hGet_rewriteSrcset_ne (ho : String) (target : HttpURL)
    (attrs : List (String × String)) (n : String) (hne : ¬ n = ("srcset")) :
    hGet (rewriteSrcset ho target attrs) n = hGet attrs n := by
  unfold rewriteSrcset
  cases hv : hGet attrs ("srcset") with
  | none => rfl
  | some v =>
    show hGet (if v = ("") then attrs
      else hSet attrs ("srcset")
        (String.mk (joinSep [',', ' ']
          ((splitPred (fun c => decide (c = ',')) v.data).map (srcsetPart ho target))))) n =
      hGet attrs n
    split_ifs with he
    · rfl
    · exact hGet_hSet_ne _ _ _ _ hne

theorem rewriteSrcset_empty (ho : String) (target : HttpURL)
    (attrs : List (String × String)) (hv : hGet attrs ("srcset") = some ("")) :
    rewriteSrcset ho target attrs = attrs := by
  unfold rewriteSrcset
  rw [hv]
  show (if ("" : String) = ("") then attrs
    else hSet attrs ("srcset")
      (String.mk (joinSep [',', ' ']
        ((splitPred (fun c => decide (c = ',')) ("" : String).data).map
          (srcsetPart ho target))))) = attrs
  rw [if_pos rfl]

theorem hGet_rewriteSrcset_self (ho : String) (target : HttpURL)
    (attrs : List (String × String)) (v : String)
    (hv : hGet attrs ("srcset") = some v) (hne : ¬ v = ("")) :
    hGet (rewriteSrcset ho target attrs) ("srcset") =
      some (String.mk (joinSep [',', ' ']
        ((splitPred (fun c => decide (c = ',')) v.data).map (srcsetPart ho target)))) := by
  unfold rewriteSrcset
  rw [hv]
  show hGet (if v = ("") then attrs
    else hSet attrs ("srcset")
      (String.mk (joinSep [',', ' ']
        ((splitPred (fun c => decide (c = ',')) v.data).map (srcsetPart ho target)))))
    ("srcset") = _
  rw [if_neg hne]
  exact hGet_hSet_self _ _ _

theorem elemRewrite_img (ho : String) (target : HttpURL)
    (attrs : List (String × String)) :
    elemRewrite ho target ("img") attrs =
      rewriteSrcset ho target (rewriteAttrVal ho target attrs ("src")) := by
  simp [elemRewrite]

theorem elemRewrite_script (ho : String) (target : HttpURL)
    (attrs : List (String × String)) :
    elemRewrite ho target ("script") attrs = rewriteAttrVal ho target attrs ("src") := by
  simp [elemRewrite]

theorem elemRewrite_link (ho : String) (target : HttpURL)
    (attrs : List (String × String)) :
    elemRewrite ho target ("link") attrs = rewriteAttrVal ho target attrs ("href") := by
  simp [elemRewrite]

theorem elemRewrite_a (ho : String) (target : HttpURL)
    (attrs : List (String × String)) :
    elemRewrite ho target ("a") attrs = rewriteAttrVal ho target attrs ("href") := by
  simp [elemRewrite]

theorem elemRewrite_form (ho : String) (target : HttpURL)
    (attrs : List (String × String)) :
    elemRewrite ho target ("form") attrs = rewriteAttrVal ho target attrs ("action") := by
  simp [elemRewrite]

theorem elemRewrite_source (ho : String) (target : HttpURL)
    (attrs : List (String × String)) :
    elemRewrite ho target ("source") attrs = rewriteSrcset ho target attrs := by
  simp [elemRewrite]

/-! ## Claim C3: markup rewriting -/

/-- C3 counterexample: an `img` whose `src` is present but empty is left
unchanged even though the empty string resolves successfully against the
target (to the target itself), so the claim that every present attribute
is replaced by the proxied resolved URL fails at this input. -/
theorem c3_counterexample :
    elemRewrite hoD tgtD ("img") [(("src"), (""))] = [(("src"), (""))] ∧
    resolve ("") tgtD = some (.http tgtD) ∧
    ¬ proxied hoD (.http tgtD) = ("") ∧
    markupRewrite hoD tgtD (.elem ("img") [(("src"), (""))] .nil) =
      .elem ("img") [(("src"), (""))] .nil :=
  ⟨by decide, by decide, by decide, rfl⟩

/-- C3 (amended): in the markup rewriter, each present and non-empty
attribute among img.src, script.src, link.href, a.href and form.action is
replaced by `proxyOrigin + prefix + encode(value resolved against the
TargetURL)`; a value that fails URL resolution is left untouched, and the
rewrite of one attribute never aborts the others (the transformation is a
total element-wise tree map).  Every rewritten value begins with the proxy
origin and prefix and its encoded part decodes back to the resolved
absolute URL.  Srcset candidates on img and source are rewritten
candidate-wise the same way, failing candidates returned verbatim. -/
theorem c3_markup_rewrite (ho : String) (target : HttpURL) :
    (∀ tag attr attrs v abs,
      ((tag = ("img") ∧ attr = ("src")) ∨ (tag = ("script") ∧ attr = ("src")) ∨
       (tag = ("link") ∧ attr = ("href")) ∨ (tag = ("a") ∧ attr = ("href")) ∨
       (tag = ("form") ∧ attr = ("action"))) →
      hGet attrs attr = some v → ¬ v = ("") →
      (resolve v target = some abs →
        hGet (elemRewrite ho target tag attrs) attr = some (proxied ho abs)) ∧
      (resolve v target = none →
        hGet (elemRewrite ho target tag attrs) attr = some v)) ∧
    (∀ abs : URLv, isPrefL (ho ++ pfx).data (proxied ho abs).data = true ∧
      decodeURIComponent (encodeURIComponent (urlToString abs)) =
        some (urlToString abs)) ∧
    (∀ part abs,
      resolve (String.mk ((splitWsTokens (trimL part)).headD [])) target = some abs →
      srcsetPart ho target part =
        (proxied ho abs).data ++ (match ((splitWsTokens (trimL part)).drop 1).head? with
          | some d => ' ' :: d
          | none => [])) ∧
    (∀ part,
      resolve (String.mk ((splitWsTokens (trimL part)).headD [])) target = none →
      srcsetPart ho target part = part) ∧
    (∀ tag attrs v, (tag = ("img") ∨ tag = ("source")) →
      hGet attrs ("srcset") = some v → ¬ v = ("") →
      hGet (elemRewrite ho target tag attrs) ("srcset") =
        some (String.mk (joinSep [',', ' ']
          ((splitPred (fun c => decide (c = ',')) v.data).map (srcsetPart ho target))))) ∧
    (∀ g tag attrs ks,
      treeMap g (.elem tag attrs ks) = .elem tag (g tag attrs) (forestMap g ks)) ∧
    (∀ g t ts, forestMap g (.cons t ts) = .cons (treeMap g t) (forestMap g ts)) := by
  refine ⟨?_, ?_, ?_, ?_, ?_, ?_, ?_⟩
  · intro tag attr attrs v abs hj hv hne
    rcases hj with ⟨ht, ha⟩ | ⟨ht, ha⟩ | ⟨ht, ha⟩ | ⟨ht, ha⟩ | ⟨ht, ha⟩ <;>
      subst ht <;> subst ha
    · exact ⟨fun hr => by
        rw [elemRewrite_img, hGet_rewriteSrcset_ne _ _ _ _ (by decide)]
        exact hGet_rewriteAttrVal_resolved _ _ _ _ _ _ hv hne hr,
      fun hr => by
        rw [elemRewrite_img, hGet_rewriteSrcset_ne _ _ _ _ (by decide)]
        exact hGet_rewriteAttrVal_failed _ _ _ _ _ hv hne hr⟩
    · exact ⟨fun hr => by
        rw [elemRewrite_script]
        exact hGet_rewriteAttrVal_resolved _ _ _ _ _ _ hv hne hr,
      fun hr => by
        rw [elemRewrite_script]
        exact hGet_rewriteAttrVal_failed _ _ _ _ _ hv hne hr⟩
    · exact ⟨fun hr => by
        rw [elemRewrite_link]
        exact hGet_rewriteAttrVal_resolved _ _ _ _ _ _ hv hne hr,
      fun hr => by
        rw [elemRewrite_link]
        exact hGet_rewriteAttrVal_failed _ _ _ _ _ hv hne hr⟩
    · exact ⟨fun hr => by
        rw [elemRewrite_a]
        exact hGet_rewriteAttrVal_resolved _ _ _ _ _ _ hv hne hr,
      fun hr => by
        rw [elemRewrite_a]
        exact hGet_rewriteAttrVal_failed _ _ _ _ _ hv hne hr⟩
    · exact ⟨fun hr => by
        rw [elemRewrite_form]
        exact hGet_rewriteAttrVal_resolved _ _ _ _ _ _ hv hne hr,
      fun hr => by
        rw [elemRewrite_form]
        exact hGet_rewriteAttrVal_failed _ _ _ _ _ hv hne hr⟩
  · intro abs
    constructor
    · unfold proxied
      rw [String.data_append]
      exact isPrefL_append _ _
    · exact decodeURIComponent_encodeURIComponent _
  · intro part abs hr
    unfold srcsetPart
    show (match resolve (String.mk ((splitWsTokens (trimL part)).headD [])) target with
      | some abs =>
        (proxied ho abs).data ++
          (match ((splitWsTokens (trimL part)).drop 1).head? with
            | some d => ' ' :: d
            | none => [])
      | none => part) = _
    rw [hr]
  · intro part hr
    unfold srcsetPart
    show (match resolve (String.mk ((splitWsTokens (trimL part)).headD [])) target with
      | some abs =>
        (proxied ho abs).data ++
          (match ((splitWsTokens (trimL part)).drop 1).head? with
            | some d => ' ' :: d
            | none => [])
      | none => part) = _
    rw [hr]
  · intro tag attrs v hj hv hne
    rcases hj with ht | ht <;> subst ht
    · rw [elemRewrite_img]
      exact hGet_rewriteSrcset_self _ _ _ _
        ((hGet_rewriteAttrVal_ne _ _ _ _ _ (by decide)).trans hv) hne
    · rw [elemRewrite_source]
      exact hGet_rewriteSrcset_self _ _ _ _ hv hne
  · intro g tag attrs ks
    rfl
  · intro g t ts
    rfl

/-- Witness for C3 at `<img src="/logo.png">` against the base
`https://example.com/old`. -/
theorem c3_witness :
    (hGet [(("src"), ("/logo.png"))] ("src") = some ("/logo.png") ∧
     resolve ("/logo.png") tgtD =
       some (.http ⟨true, none, ("example.com"), none, [("logo.png")], none, none⟩)) ∧
    hGet (elemRewrite hoD tgtD ("img") [(("src"), ("/logo.png"))]) ("src") =
      some ("http://proxy.example/cors/https%3A%2F%2Fexample.com%2Flogo.png") :=
  ⟨⟨by decide, by decide⟩,
   (((c3_markup_rewrite hoD tgtD).1 ("img") ("src") [(("src"), ("/logo.png"))]
      ("/logo.png")
      (.http ⟨true, none, ("example.com"), none, [("logo.png")], none, none⟩)
      (Or.inl ⟨rfl, rfl⟩) (by decide) (by decide)).1 (by decide)).trans (by decide)⟩

/-! ## Claim C10: empty attribute values are skipped -/

/-- C10: an element whose targeted attribute (src, href, action or srcset)
is present but equal to the empty string keeps that empty value unchanged:
the truthiness guard skips resolution and rewriting. -/
theorem c10_empty_attr (ho : String) (target : HttpURL) :
    (∀ tag attr attrs,
      ((tag = ("img") ∧ attr = ("src")) ∨ (tag = ("script") ∧ attr = ("src")) ∨
       (tag = ("link") ∧ attr = ("href")) ∨ (tag = ("a") ∧ attr = ("href")) ∨
       (tag = ("form") ∧ attr = ("action"))) →
      hGet attrs attr = some ("") →
      hGet (elemRewrite ho target tag attrs) attr = some ("")) ∧
    (∀ tag attrs, (tag = ("img") ∨ tag = ("source")) →
      hGet attrs ("srcset") = some ("") →
      hGet (elemRewrite ho target tag attrs) ("srcset") = some ("")) := by
  constructor
  · intro tag attr attrs hj hv
    rcases hj with ⟨ht, ha⟩ | ⟨ht, ha⟩ | ⟨ht, ha⟩ | ⟨ht, ha⟩ | ⟨ht, ha⟩ <;>
      subst ht <;> subst ha
    · rw [elemRewrite_img, hGet_rewriteSrcset_ne _ _ _ _ (by decide),
        rewriteAttrVal_empty _ _ _ _ hv]
      exact hv
    · rw [elemRewrite_script, rewriteAttrVal_empty _ _ _ _ hv]
      exact hv
    · rw [elemRewrite_link, rewriteAttrVal_empty _ _ _ _ hv]
      exact hv
    · rw [elemRewrite_a, rewriteAttrVal_empty _ _ _ _ hv]
      exact hv
    · rw [elemRewrite_form, rewriteAttrVal_empty _ _ _ _ hv]
      exact hv
  · intro tag attrs hj hv
    rcases hj with ht | ht <;> subst ht
    · rw [elemRewrite_img]
      have hv2 : hGet (rewriteAttrVal ho target attrs ("src")) ("srcset") = some ("") :=
        (hGet_rewriteAttrVal_ne _ _ _ _ _ (by decide)).trans hv
      rw [rewriteSrcset_empty _ _ _ hv2]
      exact hv2
    · rw [elemRewrite_source, rewriteSrcset_empty _ _ _ hv]
      exact hv

/-- Witness for C10 at `<script src="">`. -/
theorem c10_witness :
    (hGet [(("src"), (""))] ("src") = some ("")) ∧
    hGet (elemRewrite hoD tgtD ("script") [(("src"), (""))]) ("src") = some ("") :=
  ⟨by decide,
   (c10_empty_attr hoD tgtD).1 ("script") ("src") [(("src"), (""))]
     (Or.inr (Or.inl ⟨rfl, rfl⟩)) (by decide)⟩

/-! ## Claim C8: source-text rewrite example -/

/-- C8: under the source-text strategy (a `.js` target with a javascript
content-type) a body containing `fetch("https://api.example.com/data")` is
rewritten to `fetch("{proxyOrigin}{prefix}{encodeURIComponent(url)}")`
with the surrounding delimiters preserved, and a body whose quoted string
is not an http(s) URL is returned byte-identical.  Shown at the server's
default origin `http://localhost:3000`. -/
theorem c8_source_rewrite :
    codeRewrite hoL ("fetch(\"https://api.example.com/data\")") =
      ("fetch(\"") ++ hoL ++ pfx ++
        encodeURIComponent ("https://api.example.com/data") ++ ("\")") ∧
    codeRewrite hoL ("fetch(\"https://api.example.com/data\")") =
      ("fetch(\"http://localhost:3000/cors/https%3A%2F%2Fapi.example.com%2Fdata\")") ∧
    (handleUpstream phD prD hoL tgtJs
      ⟨200, [(("content-type"), ("application/javascript"))],
        ("fetch(\"https://api.example.com/data\")")⟩).body =
      ("fetch(\"http://localhost:3000/cors/https%3A%2F%2Fapi.example.com%2Fdata\")") ∧
    codeRewrite hoL ("console.log(\"hello world\")") =
      ("console.log(\"hello world\")") :=
  ⟨by decide, by decide, by decide, by decide⟩

/-! ## Claim C9: the source-text rewrite is not idempotent -/

/-- C9: applying the source-text rewrite twice to a body holding one
delimiter-bounded absolute URL re-matches the already-proxied URL (which
itself starts with the http proxy origin) and double-encodes it, so the
second application changes the output again. -/
theorem c9_not_idempotent :
    codeRewrite hoL ("f(\"https://x.com/y\")") =
      ("f(\"http://localhost:3000/cors/https%3A%2F%2Fx.com%2Fy\")") ∧
    codeRewrite hoL (codeRewrite hoL ("f(\"https://x.com/y\")")) =
      ("f(\"http://localhost:3000/cors/http%3A%2F%2Flocalhost%3A3000%2Fcors%2Fhttps%253A%252F%252Fx.com%252Fy\")") ∧
    ¬ codeRewrite hoL (codeRewrite hoL ("f(\"https://x.com/y\")")) =
      codeRewrite hoL ("f(\"https://x.com/y\")") :=
  ⟨by decide, by decide, by decide⟩
